import Mathlib

/-!
Shallow embedding of the recapme analysis pipeline (diff engine, semantic
grouper, readiness scorer, ticket matcher), translated from the TypeScript
sources in `src/`.  JavaScript objects holding heterogeneous attribute data
are modelled by the tagged `Value` type; JS object-key iteration order
(insertion order, first occurrence wins for keys, last assignment wins for
values) is modelled explicitly on association lists.  Recursive functions
whose JS originals recurse through lookups or tree children are written with
an explicit fuel argument (instantiated with an explicit size measure that
bounds the recursion depth) so that every definition is structurally
recursive and evaluates inside the kernel.
Numeric scores are modelled over `ℚ`; on every code path exercised here the
JS float arithmetic is exact, so the models agree with the source.
-/

namespace RecapMe

/-- Tagged union for JS runtime values stored in node attribute bags. -/
inductive Value where
  | str (s : String)
  | num (n : Int)
  | bool (b : Bool)
  | null
  | undef
  | arr (elems : List Value)
  | obj (fields : List (String × Value))

mutual

/-- Number of `Value` constructors in a value; bounds recursion depth. -/
def valueSize : Value → Nat
  | .str _ => 1
  | .num _ => 1
  | .bool _ => 1
  | .null => 1
  | .undef => 1
  | .arr xs => 1 + valueListSize xs
  | .obj fs => 1 + valueFieldsSize fs

def valueListSize : List Value → Nat
  | [] => 0
  | v :: vs => valueSize v + valueListSize vs

def valueFieldsSize : List (String × Value) → Nat
  | [] => 0
  | f :: fs => valueSize f.2 + valueFieldsSize fs

end

/-- ASCII-lowercase a string (`toLowerCase`; all strings handled by the
pipeline are ASCII). -/
def strLower (s : String) : String := String.mk (s.toList.map Char.toLower)

/-- JS `trim`: strip whitespace from both ends. -/
def strTrim (s : String) : String :=
  String.mk (((s.toList.dropWhile Char.isWhitespace).reverse.dropWhile
    Char.isWhitespace).reverse)

def strStartsWith (s pre : String) : Bool :=
  decide (s.toList.take pre.toList.length = pre.toList)

/-- `String.prototype.split` with a one-character separator: empty pieces
are kept, and splitting the empty string gives `[""]`. -/
def splitOnCharAux (sep : Char) : List Char → List Char → List (List Char)
  | [], acc => [acc.reverse]
  | c :: rest, acc =>
    if c = sep then acc.reverse :: splitOnCharAux sep rest []
    else splitOnCharAux sep rest (c :: acc)

def splitOnChar (sep : Char) (s : String) : List String :=
  (splitOnCharAux sep s.toList []).map String.mk

/-- First-occurrence deduplication with an accumulator of already seen keys.
Models iteration over a JS `Set` built from a list (insertion order). -/
def dedupFirstAux : List String → List String → List String
  | [], _ => []
  | x :: xs, seen =>
    if x ∈ seen then dedupFirstAux xs seen
    else x :: dedupFirstAux xs (seen ++ [x])

def dedupFirst (l : List String) : List String := dedupFirstAux l []

/-- JS object read: the last assignment to a key wins. -/
def jsGet {α : Type} (l : List (String × α)) (k : String) : Option α :=
  (l.reverse.find? (fun p => decide (p.1 = k))).map Prod.snd

/-- `Object.keys`: first-occurrence order of keys. -/
def jsKeys {α : Type} (l : List (String × α)) : List String :=
  dedupFirst (l.map Prod.fst)

/-- Reading an absent key gives `undefined`. -/
def jsGetD (l : List (String × Value)) (k : String) : Value :=
  ((jsGet l k).getD .undef)

/-- `deepEqual` from src/src/diff.ts, with fuel.  Primitives compare by
`===`; arrays compare index-wise; objects compare by key sets (order
insensitive) and recursively by value.  `undefined` equals `undefined`. -/
def deepEqualFuel : Nat → Value → Value → Bool
  | 0, _, _ => false
  | n + 1, a, b =>
    match a, b with
    | .str x, .str y => decide (x = y)
    | .num x, .num y => decide (x = y)
    | .bool x, .bool y => decide (x = y)
    | .null, .null => true
    | .undef, .undef => true
    | .arr xs, .arr ys =>
        decide (xs.length = ys.length) &&
        (xs.zip ys).all (fun p => deepEqualFuel n p.1 p.2)
    | .obj xs, .obj ys =>
        decide ((jsKeys xs).length = (jsKeys ys).length) &&
        (jsKeys xs).all (fun k =>
          decide (k ∈ jsKeys ys) && deepEqualFuel n (jsGetD xs k) (jsGetD ys k))
    | _, _ => false

/-- `valueSize` of the left value bounds the recursion depth of `deepEqual`. -/
def deepEqual (a b : Value) : Bool := deepEqualFuel (valueSize a) a b

/-! ## Figma data model (src/src/types.ts) -/

structure BoundingBox where
  x : Int
  y : Int
  width : Int
  height : Int
deriving DecidableEq

/-- The attribute record of one node, minus the child list. -/
structure NodeData where
  id : String
  name : String
  type : String
  visible : Option Bool := none
  fills : Option Value := none
  strokes : Option Value := none
  strokeWeight : Option Int := none
  cornerRadius : Option Int := none
  effects : Option Value := none
  layoutMode : Option String := none
  primaryAxisSizingMode : Option String := none
  counterAxisSizingMode : Option String := none
  paddingLeft : Option Int := none
  paddingRight : Option Int := none
  paddingTop : Option Int := none
  paddingBottom : Option Int := none
  itemSpacing : Option Int := none
  characters : Option String := none
  style : Option Value := none
  componentId : Option String := none
  componentPropertyDefinitions : Option Value := none
  absoluteBoundingBox : Option BoundingBox := none

/-- A document tree node: the flat `FigmaNode` interface split into its
attribute record and its child list. -/
inductive FigmaNode where
  | mk (data : NodeData) (children : List FigmaNode)

def FigmaNode.data : FigmaNode → NodeData
  | .mk d _ => d

def FigmaNode.children : FigmaNode → List FigmaNode
  | .mk _ c => c

structure FigmaComponent where
  key : String
  name : String
  description : String
  documentationLinks : Option (List String) := none
deriving DecidableEq

structure FigmaStyle where
  key : String
  name : String
  styleType : String
  description : String
deriving DecidableEq

structure FigmaFileResponse where
  name : String
  document : FigmaNode
  components : List (String × FigmaComponent)
  styles : List (String × FigmaStyle)

structure FigmaVersion where
  id : String
  created_at : String
  label : Option String
deriving DecidableEq

/-! ## PropertyComparator (src/src/diff.ts, getComparableProperties and
findPropertyChanges) -/

/-- JS truthiness for an optional string (`if (node.layoutMode)`). -/
def strTruthy : Option String → Bool
  | some s => decide (s ≠ "")
  | none => false

def optStrEntry (key : String) (v : Option String) : List (String × Value) :=
  match v with
  | some s => if s ≠ "" then [(key, .str s)] else []
  | none => []

def optNumEntry (key : String) (v : Option Int) : List (String × Value) :=
  match v with
  | some n => [(key, .num n)]
  | none => []

def optValEntry (key : String) (v : Option Value) : List (String × Value) :=
  match v with
  | some x => [(key, x)]
  | none => []

/-- `getComparableProperties` from src/src/diff.ts.  `visible` is always
assigned (possibly `undefined`); the remaining keys are present only when
the JS guard (truthiness or `!== undefined`) passes.  Entry order follows
the source. -/
def getComparableProperties (node : FigmaNode) : List (String × Value) :=
  let d := node.data
  [("name", Value.str d.name), ("type", Value.str d.type),
   ("visible", match d.visible with | some b => Value.bool b | none => Value.undef)]
  ++ optValEntry "fills" d.fills
  ++ optValEntry "strokes" d.strokes
  ++ optNumEntry "strokeWeight" d.strokeWeight
  ++ optNumEntry "cornerRadius" d.cornerRadius
  ++ optValEntry "effects" d.effects
  ++ optStrEntry "layoutMode" d.layoutMode
  ++ optStrEntry "primaryAxisSizingMode" d.primaryAxisSizingMode
  ++ optStrEntry "counterAxisSizingMode" d.counterAxisSizingMode
  ++ optNumEntry "paddingLeft" d.paddingLeft
  ++ optNumEntry "paddingRight" d.paddingRight
  ++ optNumEntry "paddingTop" d.paddingTop
  ++ optNumEntry "paddingBottom" d.paddingBottom
  ++ optNumEntry "itemSpacing" d.itemSpacing
  ++ optStrEntry "characters" d.characters
  ++ optValEntry "style" d.style
  ++ optStrEntry "componentId" d.componentId
  ++ optValEntry "componentPropertyDefinitions" d.componentPropertyDefinitions
  ++ (match d.absoluteBoundingBox with
      | some bb => [("size", Value.obj [("width", .num bb.width), ("height", .num bb.height)])]
      | none => [])

structure PropertyChange where
  property : String
  before : Value
  after : Value

/-- `findPropertyChanges`: iterate the union of both key sets in first
occurrence order, keeping the keys whose values are not `deepEqual`. -/
def findPropertyChanges (oldNode newNode : FigmaNode) : List PropertyChange :=
  let oldProps := getComparableProperties oldNode
  let newProps := getComparableProperties newNode
  let allKeys := dedupFirst (oldProps.map Prod.fst ++ newProps.map Prod.fst)
  allKeys.filterMap (fun key =>
    if deepEqual (jsGetD oldProps key) (jsGetD newProps key) then none
    else some { property := key, before := jsGetD oldProps key, after := jsGetD newProps key })

/-! ## formatPropertyChanges (src/src/diff.ts) -/

/-- String coercion of a JS value (template-literal interpolation), with
fuel for nested arrays. -/
def showValFuel : Nat → Value → String
  | 0, _ => ""
  | n + 1, v =>
    match v with
    | .str s => s
    | .num i => toString i
    | .bool b => if b then "true" else "false"
    | .null => "null"
    | .undef => "undefined"
    | .arr xs => ",".intercalate (xs.map (fun x =>
        match x with
        | .null => ""
        | .undef => ""
        | y => showValFuel n y))
    | .obj _ => "[object Object]"

def showVal (v : Value) : String := showValFuel (valueSize v) v

/-- JS truthiness of a value. -/
def valueTruthy : Value → Bool
  | .str s => decide (s ≠ "")
  | .num n => decide (n ≠ 0)
  | .bool b => b
  | .null => false
  | .undef => false
  | .arr _ => true
  | .obj _ => true

def numField (v : Value) (f : String) : Int :=
  match v with
  | .obj fields =>
    match jsGetD fields f with
    | .num n => n
    | _ => 0
  | _ => 0

def describeChange (c : PropertyChange) : String :=
  if c.property = "name" then
    "renamed from \"" ++ showVal c.before ++ "\" to \"" ++ showVal c.after ++ "\""
  else if c.property = "visible" then
    (if valueTruthy c.after then "made visible" else "hidden")
  else if c.property = "fills" then "fill changed"
  else if c.property = "strokes" then "stroke changed"
  else if c.property = "effects" then "effects changed"
  else if c.property = "style" then "text style changed"
  else if c.property = "characters" then "text content changed"
  else if c.property = "size" then
    "resized from " ++ toString (numField c.before "width") ++ "x"
      ++ toString (numField c.before "height") ++ " to "
      ++ toString (numField c.after "width") ++ "x" ++ toString (numField c.after "height")
  else if c.property = "layoutMode" then
    "layout changed to " ++ (if valueTruthy c.after then showVal c.after else "none")
  else if c.property = "itemSpacing" then
    "spacing changed from " ++ showVal c.before ++ " to " ++ showVal c.after
  else if c.property = "paddingLeft" ∨ c.property = "paddingRight"
       ∨ c.property = "paddingTop" ∨ c.property = "paddingBottom" then
    "padding changed"
  else if c.property = "cornerRadius" then
    "corner radius changed from " ++ showVal c.before ++ " to " ++ showVal c.after
  else if c.property = "strokeWeight" then
    "stroke weight changed from " ++ showVal c.before ++ " to " ++ showVal c.after
  else c.property ++ " changed"

def formatPropertyChanges (changes : List PropertyChange) : String :=
  ", ".intercalate (dedupFirst (changes.map describeChange))

/-! ## DiffEngine (src/src/diff.ts, flattenNodes and diffFiles) -/

structure NodeInfo where
  node : FigmaNode
  path : List String

mutual

/-- Size of a node tree: an upper bound on its node count, used as fuel. -/
def nodeTreeSize : FigmaNode → Nat
  | .mk _ cs => 1 + nodeForestSize cs

def nodeForestSize : List FigmaNode → Nat
  | [] => 0
  | c :: cs => nodeTreeSize c + nodeForestSize cs

end

/-- Worklist pre-order traversal: children are pushed in front of the rest
of the worklist, reproducing the entry order of the recursive
`flattenNodes` (node first, then each child subtree in order). -/
def flattenWork : Nat → List (FigmaNode × List String) → List (String × NodeInfo)
  | 0, _ => []
  | _ + 1, [] => []
  | n + 1, (FigmaNode.mk d cs, path) :: rest =>
    let currentPath := path ++ [d.name]
    (d.id, ⟨FigmaNode.mk d cs, currentPath⟩)
      :: flattenWork n (cs.map (fun c => (c, currentPath)) ++ rest)

/-- `flattenNodes` from src/src/diff.ts: a map from node id to
`{node, path}`, in pre-order; duplicate ids behave like JS object keys
(`jsGet` / `jsKeys`). -/
def flattenNodes (node : FigmaNode) (path : List String) : List (String × NodeInfo) :=
  flattenWork (nodeTreeSize node) [(node, path)]

inductive ChangeType where
  | added | removed | modified | renamed | moved
deriving DecidableEq

structure NodeChange where
  type : ChangeType
  nodeId : String
  nodeName : String
  nodeType : String
  path : List String
  details : String := ""
  before : Option (List (String × Value)) := none
  after : Option (List (String × Value)) := none

structure ComponentChange where
  type : ChangeType
  componentKey : String
  componentName : String
  details : String := ""
  before : Option FigmaComponent := none
  after : Option FigmaComponent := none

structure StyleChange where
  type : ChangeType
  styleKey : String
  styleName : String
  styleType : String
  details : String := ""
  before : Option FigmaStyle := none
  after : Option FigmaStyle := none

def dummyNodeInfo : NodeInfo :=
  ⟨FigmaNode.mk { id := "", name := "", type := "" } [], []⟩

def nodeInfoAt (m : List (String × NodeInfo)) (id : String) : NodeInfo :=
  (jsGet m id).getD dummyNodeInfo

/-- The `added` loop of `diffFiles`: ids in the new map missing from the
old one, skipping DOCUMENT/CANVAS nodes. -/
def diffAddedNodes (oldM newM : List (String × NodeInfo)) : List NodeChange :=
  (jsKeys newM).filterMap (fun id =>
    if id ∈ jsKeys oldM then none
    else
      let info := nodeInfoAt newM id
      if info.node.data.type = "DOCUMENT" ∨ info.node.data.type = "CANVAS" then none
      else some { type := .added, nodeId := id, nodeName := info.node.data.name,
                  nodeType := info.node.data.type, path := info.path,
                  details := "Added " ++ strLower info.node.data.type })

/-- The `removed` loop of `diffFiles`. -/
def diffRemovedNodes (oldM newM : List (String × NodeInfo)) : List NodeChange :=
  (jsKeys oldM).filterMap (fun id =>
    if id ∈ jsKeys newM then none
    else
      let info := nodeInfoAt oldM id
      if info.node.data.type = "DOCUMENT" ∨ info.node.data.type = "CANVAS" then none
      else some { type := .removed, nodeId := id, nodeName := info.node.data.name,
                  nodeType := info.node.data.type, path := info.path,
                  details := "Removed " ++ strLower info.node.data.type })

/-- The change-type classification inside the `modified` loop of
`diffFiles` (lines 254-268 of src/src/diff.ts), kept exactly as in the
source: the `moved` assignment requires `propChanges.length === 0` even
though the enclosing branch requires `propChanges.length > 0`. -/
def classifyModification (propChanges : List PropertyChange)
    (oldPath newPath : List String) : ChangeType :=
  let nameChange := propChanges.find? (fun c => decide (c.property = "name"))
  let ct := if nameChange.isSome ∧ propChanges.length = 1
            then ChangeType.renamed else ChangeType.modified
  let pathChanged :=
    String.intercalate "/" oldPath.dropLast ≠ String.intercalate "/" newPath.dropLast
  if pathChanged ∧ propChanges.length = 0 then ChangeType.moved else ct

/-- The `modified` loop of `diffFiles`: ids in both maps with a non-empty
comparable-property delta. -/
def diffModifiedNodes (oldM newM : List (String × NodeInfo)) : List NodeChange :=
  (jsKeys oldM).filterMap (fun id =>
    if id ∈ jsKeys newM then
      let oldInfo := nodeInfoAt oldM id
      let newInfo := nodeInfoAt newM id
      if oldInfo.node.data.type = "DOCUMENT" ∨ oldInfo.node.data.type = "CANVAS" then none
      else
        let propChanges := findPropertyChanges oldInfo.node newInfo.node
        if propChanges.length > 0 then
          some { type := classifyModification propChanges oldInfo.path newInfo.path,
                 nodeId := id, nodeName := newInfo.node.data.name,
                 nodeType := newInfo.node.data.type, path := newInfo.path,
                 details := formatPropertyChanges propChanges,
                 before := some (getComparableProperties oldInfo.node),
                 after := some (getComparableProperties newInfo.node) }
        else none
    else none)

/-- Component-table diff: the `added` loop, then the single loop that
pushes `removed` and `modified` entries in old-key order. -/
def diffComponents (oldC newC : List (String × FigmaComponent)) : List ComponentChange :=
  ((jsKeys newC).filterMap (fun key =>
    if key ∈ jsKeys oldC then none
    else
      let c := (jsGet newC key).getD { key := "", name := "", description := "" }
      some { type := .added, componentKey := key, componentName := c.name,
             details := "New component created", after := some c }))
  ++ ((jsKeys oldC).filterMap (fun key =>
    let oldComp := (jsGet oldC key).getD { key := "", name := "", description := "" }
    if key ∈ jsKeys newC then
      let newComp := (jsGet newC key).getD { key := "", name := "", description := "" }
      if oldComp = newComp then none
      else
        let changes := (if oldComp.name ≠ newComp.name then ["name changed"] else [])
          ++ (if oldComp.description ≠ newComp.description then ["description updated"] else [])
        some { type := .modified, componentKey := key, componentName := newComp.name,
               details := if String.intercalate ", " changes = ""
                          then "Component updated" else String.intercalate ", " changes,
               before := some oldComp, after := some newComp }
    else
      some { type := .removed, componentKey := key, componentName := oldComp.name,
             details := "Component deleted", before := some oldComp }))

/-- Style-table diff, same shape as the component diff. -/
def diffStyles (oldS newS : List (String × FigmaStyle)) : List StyleChange :=
  ((jsKeys newS).filterMap (fun key =>
    if key ∈ jsKeys oldS then none
    else
      let s := (jsGet newS key).getD { key := "", name := "", styleType := "", description := "" }
      some { type := .added, styleKey := key, styleName := s.name, styleType := s.styleType,
             details := "New " ++ strLower s.styleType ++ " style", after := some s }))
  ++ ((jsKeys oldS).filterMap (fun key =>
    let oldStyle := (jsGet oldS key).getD { key := "", name := "", styleType := "", description := "" }
    if key ∈ jsKeys newS then
      let newStyle := (jsGet newS key).getD { key := "", name := "", styleType := "", description := "" }
      if oldStyle = newStyle then none
      else some { type := .modified, styleKey := key, styleName := newStyle.name,
                  styleType := newStyle.styleType, details := "Style updated",
                  before := some oldStyle, after := some newStyle }
    else
      some { type := .removed, styleKey := key, styleName := oldStyle.name,
             styleType := oldStyle.styleType, details := "Style deleted",
             before := some oldStyle }))

structure DiffSummary where
  totalChanges : Nat
  nodesAdded : Nat
  nodesRemoved : Nat
  nodesModified : Nat
  nodesRenamed : Nat
  nodesMoved : Nat
  componentsChanged : Nat
  stylesChanged : Nat
deriving DecidableEq

structure VersionStamp where
  id : String
  createdAt : String
  label : Option String
deriving DecidableEq

structure DiffResult where
  summary : DiffSummary
  nodeChanges : List NodeChange
  componentChanges : List ComponentChange
  styleChanges : List StyleChange
  fromVersion : VersionStamp
  toVersion : VersionStamp
  fileName : String

/-- `diffFiles` from src/src/diff.ts. -/
def diffFiles (oldFile newFile : FigmaFileResponse)
    (oldVersion newVersion : FigmaVersion) : DiffResult :=
  let oldNodes := flattenNodes oldFile.document []
  let newNodes := flattenNodes newFile.document []
  let nodeChanges := diffAddedNodes oldNodes newNodes
    ++ diffRemovedNodes oldNodes newNodes
    ++ diffModifiedNodes oldNodes newNodes
  let componentChanges := diffComponents oldFile.components newFile.components
  let styleChanges := diffStyles oldFile.styles newFile.styles
  { summary :=
      { totalChanges := nodeChanges.length + componentChanges.length + styleChanges.length,
        nodesAdded := nodeChanges.countP (fun c => decide (c.type = .added)),
        nodesRemoved := nodeChanges.countP (fun c => decide (c.type = .removed)),
        nodesModified := nodeChanges.countP (fun c => decide (c.type = .modified)),
        nodesRenamed := nodeChanges.countP (fun c => decide (c.type = .renamed)),
        nodesMoved := nodeChanges.countP (fun c => decide (c.type = .moved)),
        componentsChanged := componentChanges.length,
        stylesChanged := styleChanges.length },
    nodeChanges := nodeChanges,
    componentChanges := componentChanges,
    styleChanges := styleChanges,
    fromVersion := { id := oldVersion.id, createdAt := oldVersion.created_at,
                     label := oldVersion.label },
    toVersion := { id := newVersion.id, createdAt := newVersion.created_at,
                   label := newVersion.label },
    fileName := newFile.name }

/-! ## SemanticGrouper (src/src/analysis/semantic-grouper.ts, embedded from
src/unnamed/part_000) -/

def isPrefixChars : List Char → List Char → Bool
  | [], _ => true
  | _ :: _, [] => false
  | a :: as, b :: bs => decide (a = b) && isPrefixChars as bs

def isInfixChars : List Char → List Char → Bool
  | needle, [] => needle.isEmpty
  | needle, hay@(_ :: rest) =>
    isPrefixChars needle hay || isInfixChars needle rest

/-- `a.includes(b)` for JS strings: substring containment. -/
def strIncludes (a b : String) : Bool := isInfixChars b.toList a.toList

def isDigitRun (l : List Char) : Bool :=
  !l.isEmpty && l.all Char.isDigit

/-- One `/^Word \d+$/i` noise pattern, applied to an already lowercased
name. -/
def numberedNoise (word n : String) : Bool :=
  strStartsWith n (word ++ " ") && isDigitRun (n.toList.drop (word.toList.length + 1))

/-- `isNoiseName`: the fixed NOISE_PATTERNS regex list. -/
def isNoiseName (name : String) : Bool :=
  let n := strLower name
  decide (n = "vector") || numberedNoise "rectangle" n || numberedNoise "ellipse" n
  || numberedNoise "line" n || numberedNoise "frame" n || numberedNoise "group" n
  || decide (n = "image") || decide (n = "intersect") || decide (n = "union")
  || decide (n = "subtract")

def NOISE_NODE_TYPES : List String :=
  ["VECTOR", "BOOLEAN_OPERATION", "LINE", "REGULAR_POLYGON", "STAR", "SLICE"]

def isNoiseType (nodeType : String) : Bool := NOISE_NODE_TYPES.contains nodeType

/-- `extractFeatureName`: drop the `Document` segment and noise-named
segments; the first remaining segment names the feature. -/
def extractFeatureName (path : List String) : String × String :=
  let meaningfulPath := path.filter (fun p => decide (p ≠ "Document") && !isNoiseName p)
  if meaningfulPath.isEmpty then
    ("Ungrouped", String.intercalate " > " path)
  else
    (meaningfulPath.headD "", String.intercalate " > " (meaningfulPath.take 3))

/-- `isVariantName`: the regex `/[A-Za-z]+=/` — some ASCII letter directly
followed by `=`. -/
def isVariantName (name : String) : Bool :=
  (name.toList.zip name.toList.tail).any (fun p => p.1.isAlpha && decide (p.2 = '='))

def isWordChar (c : Char) : Bool := c.isAlphanum || decide (c = '_')

def isWordOrSpaceChar (c : Char) : Bool := isWordChar c || c.isWhitespace

/-- Global scan for `/[A-Za-z]+=[\w\s]+/g` (`extractVariantProperties`).
Fuel is the length of the remaining character list; every recursive call
consumes at least one character. -/
def variantScan : Nat → List Char → List String
  | 0, _ => []
  | _ + 1, [] => []
  | n + 1, c :: rest =>
    if c.isAlpha then
      let letters := (c :: rest).takeWhile Char.isAlpha
      let after := (c :: rest).dropWhile Char.isAlpha
      match after with
      | '=' :: rest2 =>
        let body := rest2.takeWhile isWordOrSpaceChar
        if body.isEmpty then variantScan n rest
        else String.mk (letters ++ '=' :: body)
          :: variantScan n (rest2.drop body.length)
      | _ => variantScan n rest
    else variantScan n rest

/-- `extractVariantProperties`: all `Key=Value` tokens in a name. -/
def extractVariantProperties (name : String) : List String :=
  variantScan name.toList.length name.toList

inductive FeatureCategory where
  | component | componentSet | pageSection | style | icon | layout | misc
deriving DecidableEq

inductive GroupChangeType where
  | new | updated | removed
deriving DecidableEq

structure ChangeCounts where
  added : Nat
  modified : Nat
  removed : Nat
deriving DecidableEq

structure FeatureGroup where
  name : String
  description : String
  category : FeatureCategory
  changeType : GroupChangeType
  changes : ChangeCounts
  variants : List String
  highlights : List String
  nodeChanges : List NodeChange
  componentChanges : List ComponentChange
  path : String

/-- `categorizeFeature`. -/
def categorizeFeature (name : String) (nodeChanges : List NodeChange)
    (componentChanges : List ComponentChange) : FeatureCategory :=
  if nodeChanges.any (fun c => decide (c.nodeType = "COMPONENT_SET"))
     ∨ componentChanges.length > 5 then .componentSet
  else if strIncludes (strLower name) "icon" ∨ strIncludes (strLower name) "icons" then .icon
  else if componentChanges.length > 0
       ∨ nodeChanges.any (fun c => decide (c.nodeType = "COMPONENT")) then .component
  else if strIncludes (strLower name) "style" ∨ strIncludes (strLower name) "color" then .style
  else if nodeChanges.length > 10 then .pageSection
  else .misc

/-- `generateDescription`. -/
def generateDescription (name : String) (changeType : GroupChangeType)
    (changes : ChangeCounts) (variants : List String)
    (componentChanges : List ComponentChange) : String :=
  let parts : List String :=
    (match changeType with
     | .new =>
       if componentChanges.length > 0 then
         ["New component with " ++ toString componentChanges.length ++ " variant"
           ++ (if componentChanges.length > 1 then "s" else "")]
       else ["New " ++ strLower name ++ " added"]
     | .removed => [name ++ " removed"]
     | .updated =>
       if changes.added > 0 ∧ changes.modified > 0 then
         ["Added " ++ toString changes.added ++ " elements, modified "
           ++ toString changes.modified]
       else if changes.added > 0 then
         ["Added " ++ toString changes.added ++ " element"
           ++ (if changes.added > 1 then "s" else "")]
       else if changes.modified > 0 then
         ["Modified " ++ toString changes.modified ++ " element"
           ++ (if changes.modified > 1 then "s" else "")]
       else [])
    ++ (if variants.length > 3 then
          let uniqueProps := dedupFirst (variants.flatMap (fun v =>
            (extractVariantProperties v).map (fun p => (splitOnChar '=' p).headD "")))
          if uniqueProps.length > 0 then
            ["Variants: " ++ String.intercalate ", " uniqueProps]
          else []
        else [])
  if String.intercalate ". " parts = "" then "Changes made"
  else String.intercalate ". " parts

/-- The second component of `p.split('=')`, or `undefined` as `none`. -/
def eqSecond (p : String) : Option String :=
  (splitOnChar '=' p).get? 1

/-- Collect the non-falsy values of variant tokens starting with the given
key (the three lookalike blocks of `extractHighlights`). -/
def variantValuesFor (key : String) (cs : List ComponentChange)
    (addedOnly requireVariant : Bool) : List String :=
  (cs.filter (fun c => (!addedOnly || decide (c.type = ChangeType.added))
      && (!requireVariant || isVariantName c.componentName))).filterMap (fun c =>
    match ((extractVariantProperties c.componentName).find?
             (fun p => strStartsWith p (key ++ "="))).bind eqSecond with
    | some v => if v = "" then none else some v
    | none => none)

/-- `extractHighlights`. -/
def extractHighlights (_nodeChanges : List NodeChange)
    (componentChanges : List ComponentChange) : List String :=
  let stateVariants := variantValuesFor "State" componentChanges true true
  let h1 : List String :=
    if stateVariants.length > 0 then
      let uniqueStates := dedupFirst stateVariants
      if uniqueStates.length ≤ 5 then
        ["States: " ++ String.intercalate ", " uniqueStates]
      else [toString uniqueStates.length ++ " state variants"]
    else []
  let sizeVariants := variantValuesFor "Size" componentChanges true false
  let h2 : List String :=
    if sizeVariants.length > 0 then
      ["Sizes: " ++ String.intercalate ", " (dedupFirst sizeVariants)]
    else []
  let typeVariants := variantValuesFor "Type" componentChanges true false
  let h3 : List String :=
    if typeVariants.length > 0 then
      let uniqueTypes := dedupFirst typeVariants
      if uniqueTypes.length ≤ 5 then
        ["Types: " ++ String.intercalate ", " uniqueTypes]
      else [toString uniqueTypes.length ++ " type variants"]
    else []
  (h1 ++ h2 ++ h3).take 5

/-- Accumulator entry of the grouping `Map`. -/
structure FeatureData where
  nodeChanges : List NodeChange
  componentChanges : List ComponentChange
  paths : List String

def emptyFeatureData : FeatureData := ⟨[], [], []⟩

/-- Insertion-ordered set add (JS `Set.add`). -/
def setAddStr (l : List String) (s : String) : List String :=
  if s ∈ l then l else l ++ [s]

/-- Update the (unique) entry with the given key, leaving its position. -/
def featMapUpdate : List (String × FeatureData) → String → (FeatureData → FeatureData)
    → List (String × FeatureData)
  | [], _, _ => []
  | e :: rest, k, f =>
    if e.1 = k then (e.1, f e.2) :: rest else e :: featMapUpdate rest k f

/-- `Map.set` of a fresh empty entry when the key is absent. -/
def featMapInit (m : List (String × FeatureData)) (k : String) :
    List (String × FeatureData) :=
  if k ∈ m.map Prod.fst then m else m ++ [(k, emptyFeatureData)]

/-- Append a node change to a feature entry and record its 3-segment path
prefix. -/
def pushNodeChange (change : NodeChange) (d : FeatureData) : FeatureData :=
  { d with nodeChanges := d.nodeChanges ++ [change],
           paths := setAddStr d.paths
             (String.intercalate " > " (change.path.take 3)) }

/-- Append a component change to a feature entry. -/
def pushComponentChange (change : ComponentChange) (d : FeatureData) : FeatureData :=
  { d with componentChanges := d.componentChanges ++ [change] }

/-- One step of the node-change grouping loop of
`groupChangesSemanticaly`. -/
def groupNodeStep (st : List (String × FeatureData) × List NodeChange)
    (change : NodeChange) : List (String × FeatureData) × List NodeChange :=
  if isNoiseName change.nodeName && isNoiseType change.nodeType then st
  else
    let name := (extractFeatureName change.path).1
    if decide (name = "Ungrouped") || isNoiseName name then (st.1, st.2 ++ [change])
    else
      let m := featMapInit st.1 name
      (featMapUpdate m name (pushNodeChange change), st.2)

/-- One step of the component-change grouping loop. -/
def groupComponentStep (m : List (String × FeatureData))
    (change : ComponentChange) : List (String × FeatureData) :=
  let c0 := (splitOnChar '/' change.componentName).headD ""
  let featureName := if c0 = "" then change.componentName else c0
  let matchedFeature := (m.map Prod.fst).find? (fun name =>
    strIncludes (strLower featureName) (strLower name)
    || strIncludes (strLower name) (strLower featureName))
  let targetFeature := matchedFeature.getD featureName
  featMapUpdate (featMapInit m targetFeature) targetFeature
    (pushComponentChange change)

/-- Per-group derived fields (the body of the `for (const [name, data] of
featureMap)` loop). -/
def buildFeatureGroup (name : String) (data : FeatureData) : FeatureGroup :=
  let changes : ChangeCounts :=
    { added := data.nodeChanges.countP (fun c => decide (c.type = .added))
        + data.componentChanges.countP (fun c => decide (c.type = .added)),
      modified := data.nodeChanges.countP
          (fun c => decide (c.type = .modified) || decide (c.type = .renamed))
        + data.componentChanges.countP (fun c => decide (c.type = .modified)),
      removed := data.nodeChanges.countP (fun c => decide (c.type = .removed))
        + data.componentChanges.countP (fun c => decide (c.type = .removed)) }
  let changeType : GroupChangeType :=
    if changes.removed > changes.added ∧ changes.removed > changes.modified then .removed
    else if changes.added > changes.modified ∧ changes.added > 0 then
      (if (data.componentChanges.countP (fun c => decide (c.type = .added))) * 2
          > data.componentChanges.length
       then .new else .updated)
    else .updated
  let variants := (data.componentChanges.filter
      (fun c => isVariantName c.componentName)).map (fun c => c.componentName)
  { name := name,
    description := generateDescription name changeType changes variants data.componentChanges,
    category := categorizeFeature name data.nodeChanges data.componentChanges,
    changeType := changeType,
    changes := changes,
    variants := variants,
    highlights := extractHighlights data.nodeChanges data.componentChanges,
    nodeChanges := data.nodeChanges,
    componentChanges := data.componentChanges,
    path := match data.paths with
            | [] => name
            | p :: _ => if p = "" then name else p }

/-- Comparator of the final `features.sort`: `new` groups first, then
descending total change volume. -/
def featureLE (a b : FeatureGroup) : Bool :=
  if a.changeType = .new ∧ b.changeType ≠ .new then true
  else if b.changeType = .new ∧ a.changeType ≠ .new then false
  else
    let aTotal := a.changes.added + a.changes.modified + a.changes.removed
    let bTotal := b.changes.added + b.changes.modified + b.changes.removed
    decide (bTotal ≤ aTotal)

/-- Stable insertion keeping `x` after every earlier element it does not
strictly precede: with the consistent comparator `featureLE` this computes
the same list as the (stable) JS `Array.prototype.sort`. -/
def stableInsert {α : Type} (le : α → α → Bool) (x : α) : List α → List α
  | [] => [x]
  | y :: ys => if le y x then y :: stableInsert le x ys else x :: y :: ys

def stableSort {α : Type} (le : α → α → Bool) : List α → List α
  | [] => []
  | x :: xs => stableInsert le x (stableSort le xs)

structure SemanticSummary where
  featuresWorkedOn : Nat
  newFeatures : Nat
  updatedFeatures : Nat
  removedFeatures : Nat
  totalChanges : Nat
deriving DecidableEq

structure SemanticDiffResult where
  features : List FeatureGroup
  summary : SemanticSummary
  ungroupedChanges : List NodeChange
  styleChanges : List StyleChange
  originalDiff : DiffResult

/-- `groupChangesSemanticaly` (the typo is the source's). -/
def groupChangesSemanticaly (diff : DiffResult) : SemanticDiffResult :=
  let st := diff.nodeChanges.foldl groupNodeStep ([], [])
  let featureMap := diff.componentChanges.foldl groupComponentStep st.1
  let features0 := featureMap.filterMap (fun e =>
    if e.2.nodeChanges.isEmpty && e.2.componentChanges.isEmpty then none
    else some (buildFeatureGroup e.1 e.2))
  let features := stableSort featureLE features0
  { features := features,
    summary :=
      { featuresWorkedOn := features.length,
        newFeatures := features.countP (fun f => decide (f.changeType = .new)),
        updatedFeatures := features.countP (fun f => decide (f.changeType = .updated)),
        removedFeatures := features.countP (fun f => decide (f.changeType = .removed)),
        totalChanges := diff.summary.totalChanges },
    ungroupedChanges := st.2,
    styleChanges := diff.styleChanges,
    originalDiff := diff }

/-- All node changes held by the grouping map, in insertion order. -/
def groupedNodeChanges (m : List (String × FeatureData)) : List NodeChange :=
  m.flatMap (fun e => e.2.nodeChanges)

/-- The noise filter of the grouper: a change survives unless both its name
and its node type are noise. -/
def survivesNoise (c : NodeChange) : Bool :=
  !(isNoiseName c.nodeName && isNoiseType c.nodeType)

/-! ## ReadinessScorer (src/src/analysis/readiness.ts, embedded from
src/unnamed/part_001).  Scores are over `ℚ`; every branch below performs
arithmetic that is exact in JS floats as well. -/

structure ComponentReadiness where
  overall : Int
  hasAllStates : Bool
  hasResponsive : Bool
  usesTokens : Bool
  hasAnnotations : Bool
  hasPrototype : Bool
  issues : List String

def REQUIRED_STATES : List String := ["Default", "Hover", "Disabled"]

def RECOMMENDED_STATES : List String := ["Active", "Focus", "Loading", "Error", "Selected"]

def RESPONSIVE_INDICATORS : List String :=
  ["mobile", "tablet", "desktop", "sm", "md", "lg", "xl",
   "small", "medium", "large", "320", "768", "1024", "1440"]

def lowerPrefixAt (pre : List Char) (l : List Char) : Bool :=
  decide ((l.take pre.length).map Char.toLower = pre)

/-- First match of `/State=([^,]+)/i` in a character list: scan for a
case-insensitive `State=` whose following non-comma run is non-empty. -/
def stateScan : List Char → Option (List Char)
  | [] => none
  | c :: rest =>
    if lowerPrefixAt "state=".toList (c :: rest) then
      let body := ((c :: rest).drop 6).takeWhile (fun ch => decide (ch ≠ ','))
      if body.isEmpty then stateScan rest else some body
    else stateScan rest

def findStateValue (s : String) : Option String :=
  (stateScan s.toList).map String.mk

/-- `extractStates`: trimmed captures, deduplicated in insertion order. -/
def extractStates (variants : List String) : List String :=
  dedupFirst (variants.filterMap (fun v => (findStateValue v).map strTrim))

/-- `hasResponsiveVariants`. -/
def hasResponsiveVariants (variants nodePaths : List String) : Bool :=
  let allText := strLower (String.intercalate " " (variants ++ nodePaths))
  RESPONSIVE_INDICATORS.any (fun ind => strIncludes allText (strLower ind))

def annotationKeywords : List String :=
  ["note:", "spec:", "dev:", "handoff:", "TODO", "implementation"]

/-- The inline annotation check of `assessComponentReadiness`: some
TEXT-typed change whose name contains an annotation keyword. -/
def hasAnnotationChanges (nodeChanges : List NodeChange) : Bool :=
  nodeChanges.any (fun change =>
    decide (change.nodeType = "TEXT") &&
    annotationKeywords.any (fun kw => strIncludes (strLower change.nodeName) (strLower kw)))

/-- `Math.round`: round half toward positive infinity. -/
def jsRound (q : ℚ) : Int := ⌊q + 1 / 2⌋

/-- `states.some(s => s.toLowerCase() === state.toLowerCase())`, the
case-insensitive membership test repeated in `assessComponentReadiness`. -/
def stateFound (states : List String) (st : String) : Bool :=
  states.any (fun s => decide (strLower s = strLower st))

/-- `assessComponentReadiness` from src/src/analysis/readiness.ts. -/
def assessComponentReadiness (feature : FeatureGroup) : ComponentReadiness :=
  let states := extractStates feature.variants
  let hasRequiredStates := REQUIRED_STATES.all (stateFound states)
  let missingRequired := REQUIRED_STATES.filter (fun st => !stateFound states st)
  let score1 : ℚ :=
    if hasRequiredStates then 30
    else ((REQUIRED_STATES.length - missingRequired.length : ℕ) : ℚ)
           / (REQUIRED_STATES.length : ℚ) * 30
  let issues1 : List String :=
    if hasRequiredStates then []
    else if missingRequired.length > 0 then
      ["Missing required states: " ++ String.intercalate ", " missingRequired]
    else []
  let recommendedFound := RECOMMENDED_STATES.filter (stateFound states)
  let score2 := score1 +
    (if recommendedFound.length > 0
     then min ((recommendedFound.length : ℚ) * 2) 10 else 0)
  let nodePaths := feature.nodeChanges.map (fun c => String.intercalate " " c.path)
  let hasResponsive := hasResponsiveVariants feature.variants nodePaths
  let issues2 := issues1 ++
    (if !hasResponsive
        ∧ (feature.category = .componentSet ∨ feature.componentChanges.length > 5)
     then ["No responsive variants detected"] else [])
  let score3 := score2 +
    (if hasResponsive then 20
     else if feature.category ≠ .componentSet then 10 else 0)
  let usesTokens := true
  let score4 := score3 + (if usesTokens then 20 else 0)
  let hasAnnotations := hasAnnotationChanges feature.nodeChanges
  let issues4 := issues2 ++
    (if !hasAnnotations ∧ feature.category = .componentSet
     then ["Consider adding developer annotations"] else [])
  let score5 := score4 + (if hasAnnotations then 15 else 5)
  let hasPrototype := false
  let score6 := score5 + (if feature.componentChanges.length > 3 then 8 else 0)
  { overall := min (jsRound score6) 100,
    hasAllStates := hasRequiredStates,
    hasResponsive := hasResponsive,
    usesTokens := usesTokens,
    hasAnnotations := hasAnnotations,
    hasPrototype := hasPrototype,
    issues := issues4 }

/-! ## TicketMatcher (src/src/analysis/ticket-matcher.ts) -/

structure TicketLabel where
  name : String
  color : String := ""
deriving DecidableEq

structure TicketState where
  name : String
  type : String := ""
deriving DecidableEq

structure LinearTicket where
  id : String
  identifier : String := ""
  title : String
  description : Option String := none
  state : TicketState := { name := "" }
  labels : List TicketLabel := []
  url : String := ""
  figmaLinks : List String := []
deriving DecidableEq

/-- Split a character list into maximal runs of non-whitespace characters
(result in order); fuel is the list length. -/
def wordSplit : Nat → List Char → List (List Char)
  | 0, _ => []
  | _ + 1, [] => []
  | n + 1, c :: rest =>
    if c.isWhitespace then wordSplit n rest
    else
      let w := (c :: rest).takeWhile (fun ch => !ch.isWhitespace)
      w :: wordSplit n ((c :: rest).dropWhile (fun ch => !ch.isWhitespace))

def keepNormChar (c : Char) : Bool :=
  (c.isLower && c.isAlpha) || c.isDigit || c.isWhitespace

/-- `normalize` from the ticket matcher: lowercase, strip everything that
is not `[a-z0-9\s]`, collapse whitespace runs into single spaces, trim. -/
def normalize (text : String) : String :=
  let kept := (strLower text).toList.filter keepNormChar
  String.intercalate " " ((wordSplit kept.length kept).map String.mk)

/-- `similarity`: 1 if equal, 0.8 on substring containment, otherwise the
shared-long-token count over the larger token-set size. -/
def similarity (a b : String) : ℚ :=
  let aNorm := normalize a
  let bNorm := normalize b
  if aNorm = bNorm then 1
  else if strIncludes aNorm bNorm ∨ strIncludes bNorm aNorm then 8 / 10
  else
    let aWords := dedupFirst (splitOnChar ' ' aNorm)
    let bWords := dedupFirst (splitOnChar ' ' bNorm)
    let overlap := aWords.countP (fun w => decide (w ∈ bWords) && decide (w.length > 2))
    let maxWords := max aWords.length bWords.length
    if maxWords > 0 then (overlap : ℚ) / (maxWords : ℚ) else 0

def isAlnumChar (c : Char) : Bool := c.isAlpha || c.isDigit

/-- Try `(?:file|design|proto)\/([a-zA-Z0-9]+)` at the given position. -/
def tryKindAt (kind : String) (l : List Char) : Option String :=
  if decide (l.take kind.length = kind.toList) then
    let run := (l.drop kind.length).takeWhile isAlnumChar
    if run.isEmpty then none else some (String.mk run)
  else none

/-- Try the whole regex `/figma\.com\/(?:file|design|proto)\/([a-zA-Z0-9]+)/`
anchored at the current position. -/
def tryFigmaAt (l : List Char) : Option String :=
  if decide (l.take 10 = "figma.com/".toList) then
    let after := l.drop 10
    (tryKindAt "file/" after).orElse (fun _ =>
      (tryKindAt "design/" after).orElse (fun _ => tryKindAt "proto/" after))
  else none

def fileKeyScan : List Char → Option String
  | [] => none
  | c :: rest =>
    match tryFigmaAt (c :: rest) with
    | some k => some k
    | none => fileKeyScan rest

/-- `extractFileKeyFromUrl`. -/
def extractFileKeyFromUrl (url : String) : Option String :=
  fileKeyScan url.toList

/-- `ticketHasFigmaFile`. -/
def ticketHasFigmaFile (ticket : LinearTicket) (fileKey : String) : Bool :=
  ticket.figmaLinks.any (fun link =>
    decide (extractFileKeyFromUrl link = some fileKey))

inductive Confidence where
  | high | medium | low | none
deriving DecidableEq

structure BestMatch where
  ticket : Option LinearTicket
  confidence : Confidence
  reason : String

/-- Score and reason of one (feature, ticket) pair, mirroring the loop body
of `findBestTicketMatch`. -/
def scoreTicket (feature : FeatureGroup) (figmaFileKey : Option String)
    (ticket : LinearTicket) : ℚ × String :=
  let s1 : ℚ := 0
  let r1 : String := ""
  let p2 :=
    match figmaFileKey with
    | some k =>
      if k ≠ "" ∧ ticketHasFigmaFile ticket k
      then (s1 + 1 / 2, "Figma file linked in ticket") else (s1, r1)
    | none => (s1, r1)
  let titleSim := similarity feature.name ticket.title
  let p3 :=
    if titleSim > 1 / 2 then
      (p2.1 + titleSim * (3 / 10),
       if p2.2 ≠ "" then p2.2 else "Title match: \"" ++ ticket.title ++ "\"")
    else p2
  let p4 :=
    match ticket.description with
    | some d =>
      if d ≠ "" then
        let descSim := similarity feature.name d
        if descSim > 3 / 10 then
          (p3.1 + descSim * (2 / 10),
           if p3.2 ≠ "" then p3.2 else "Mentioned in description")
        else p3
      else p3
    | none => p3
  let p5 :=
    match ticket.labels.find? (fun lb =>
        decide (similarity feature.name lb.name > 6 / 10)) with
    | some lb =>
      (p4.1 + 2 / 10,
       if p4.2 ≠ "" then p4.2 else "Label match: \"" ++ lb.name ++ "\"")
    | none => p4
  p5

/-- The best-so-far fold over the candidate list (`score > bestScore`). -/
def bestLoop (feature : FeatureGroup) (figmaFileKey : Option String) :
    List LinearTicket → Option LinearTicket × ℚ × String
    → Option LinearTicket × ℚ × String
  | [], acc => acc
  | t :: ts, acc =>
    let sr := scoreTicket feature figmaFileKey t
    if sr.1 > acc.2.1 then bestLoop feature figmaFileKey ts (some t, sr.1, sr.2)
    else bestLoop feature figmaFileKey ts acc

/-- `findBestTicketMatch`. -/
def findBestTicketMatch (feature : FeatureGroup) (tickets : List LinearTicket)
    (figmaFileKey : Option String) : BestMatch :=
  if tickets.isEmpty then
    { ticket := none, confidence := .none, reason := "No tickets available" }
  else
    let acc := bestLoop feature figmaFileKey tickets (none, 0, "")
    if acc.2.1 ≥ 7 / 10 then
      { ticket := acc.1, confidence := .high, reason := acc.2.2 }
    else if acc.2.1 ≥ 4 / 10 then
      { ticket := acc.1, confidence := .medium, reason := acc.2.2 }
    else if acc.2.1 > 1 / 10 then
      { ticket := acc.1, confidence := .low, reason := acc.2.2 }
    else
      { ticket := none, confidence := .none, reason := "No matching ticket found" }

structure TicketMatch where
  feature : FeatureGroup
  ticket : Option LinearTicket
  matchConfidence : Confidence
  matchReason : String

structure MatchSummary where
  totalFeatures : Nat
  matchedFeatures : Nat
  matchPercentage : Int
deriving DecidableEq

structure MatchResult where
  matches' : List TicketMatch
  unmatchedFeatures : List FeatureGroup
  unmatchedTickets : List LinearTicket
  summary : MatchSummary

/-- Insertion-ordered set add for ticket ids. -/
def setAddId (l : List String) (s : String) : List String :=
  if s ∈ l then l else l ++ [s]

/-- The feature loop of `matchFeaturesToTickets`: each feature is matched
against the tickets not yet assigned, and an assigned ticket id joins the
`matchedTicketIds` set. -/
def matchLoop (tickets : List LinearTicket) (figmaFileKey : Option String) :
    List FeatureGroup → List String → List TicketMatch × List String
  | [], matchedIds => ([], matchedIds)
  | f :: fs, matchedIds =>
    let available := tickets.filter (fun t => !decide (t.id ∈ matchedIds))
    let best := findBestTicketMatch f available figmaFileKey
    let matchedIds' :=
      match best.ticket with
      | some t => if best.confidence ≠ .none then setAddId matchedIds t.id else matchedIds
      | none => matchedIds
    let rest := matchLoop tickets figmaFileKey fs matchedIds'
    ({ feature := f, ticket := best.ticket, matchConfidence := best.confidence,
       matchReason := best.reason } :: rest.1, rest.2)

/-- All ticket ids assigned after the loop (`matchedTicketIds` at the end):
recomputed from the matches. -/
def assignedTicketIds (ms : List TicketMatch) : List String :=
  ms.filterMap (fun m => m.ticket.map (fun t => t.id))

/-- `matchFeaturesToTickets`. -/
def matchFeaturesToTickets (semanticDiff : SemanticDiffResult)
    (tickets : List LinearTicket) (figmaFileKey : Option String) : MatchResult :=
  let loopResult := matchLoop tickets figmaFileKey semanticDiff.features []
  let ms := loopResult.1
  let matchedIds := loopResult.2
  let matchedCount := ms.countP (fun m => decide (m.matchConfidence ≠ .none))
  { matches' := ms,
    unmatchedFeatures := (ms.filter
      (fun m => decide (m.matchConfidence = .none))).map (fun m => m.feature),
    unmatchedTickets := tickets.filter (fun t => !decide (t.id ∈ matchedIds)),
    summary :=
      { totalFeatures := semanticDiff.features.length,
        matchedFeatures := matchedCount,
        matchPercentage :=
          if semanticDiff.features.length > 0 then
            jsRound (((matchedCount : ℚ) / (semanticDiff.features.length : ℚ)) * 100)
          else 0 } }

/-! ## Concrete instances used to exercise the pipeline -/

def mkVersion (i d : String) : FigmaVersion := { id := i, created_at := d, label := none }

/-- A leaf that moves from FrameA to FrameB with an unchanged comparable
projection (only its ancestor path differs). -/
def movedLeaf : FigmaNode := .mk { id := "3:1", name := "Label", type := "TEXT" } []

def movedOldFile : FigmaFileResponse :=
  { name := "Design",
    document := .mk { id := "0:0", name := "Document", type := "DOCUMENT" }
      [.mk { id := "1:1", name := "Page 1", type := "CANVAS" }
        [.mk { id := "2:1", name := "FrameA", type := "FRAME" } [movedLeaf],
         .mk { id := "2:2", name := "FrameB", type := "FRAME" } []]],
    components := [], styles := [] }

def movedNewFile : FigmaFileResponse :=
  { name := "Design",
    document := .mk { id := "0:0", name := "Document", type := "DOCUMENT" }
      [.mk { id := "1:1", name := "Page 1", type := "CANVAS" }
        [.mk { id := "2:1", name := "FrameA", type := "FRAME" } [],
         .mk { id := "2:2", name := "FrameB", type := "FRAME" } [movedLeaf]]],
    components := [], styles := [] }

/-- A leaf that is simultaneously renamed (Label → Caption) and moved from
FrameA to FrameB, with no other comparable property differing. -/
def renMovOldFile : FigmaFileResponse :=
  { name := "Design",
    document := .mk { id := "0:0", name := "Document", type := "DOCUMENT" }
      [.mk { id := "1:1", name := "Page 1", type := "CANVAS" }
        [.mk { id := "2:1", name := "FrameA", type := "FRAME" }
          [.mk { id := "3:1", name := "Label", type := "TEXT" } []],
         .mk { id := "2:2", name := "FrameB", type := "FRAME" } []]],
    components := [], styles := [] }

def renMovNewFile : FigmaFileResponse :=
  { name := "Design",
    document := .mk { id := "0:0", name := "Document", type := "DOCUMENT" }
      [.mk { id := "1:1", name := "Page 1", type := "CANVAS" }
        [.mk { id := "2:1", name := "FrameA", type := "FRAME" } [],
         .mk { id := "2:2", name := "FrameB", type := "FRAME" }
          [.mk { id := "3:1", name := "Caption", type := "TEXT" } []]]],
    components := [], styles := [] }

/-- Old snapshot of the grouping scenario: frame "Button" holding the
component "Button/State=Default". -/
def scenarioOldFile : FigmaFileResponse :=
  { name := "Design",
    document := .mk { id := "0:0", name := "Document", type := "DOCUMENT" }
      [.mk { id := "1:1", name := "Button", type := "FRAME" }
        [.mk { id := "2:1", name := "Button/State=Default", type := "COMPONENT" } []]],
    components := [("k1", { key := "k1", name := "Button/State=Default", description := "" })],
    styles := [] }

/-- New snapshot: the sibling component "Button/State=Hover" and its
component-library entry are added. -/
def scenarioNewFile : FigmaFileResponse :=
  { name := "Design",
    document := .mk { id := "0:0", name := "Document", type := "DOCUMENT" }
      [.mk { id := "1:1", name := "Button", type := "FRAME" }
        [.mk { id := "2:1", name := "Button/State=Default", type := "COMPONENT" } [],
         .mk { id := "2:2", name := "Button/State=Hover", type := "COMPONENT" } []]],
    components := [("k1", { key := "k1", name := "Button/State=Default", description := "" }),
                   ("k2", { key := "k2", name := "Button/State=Hover", description := "" })],
    styles := [] }

/-- Old/new snapshots with a single added frame, used to exercise the
added/removed bookkeeping. -/
def addOnlyOldFile : FigmaFileResponse :=
  { name := "Design",
    document := .mk { id := "0:0", name := "Document", type := "DOCUMENT" } [],
    components := [], styles := [] }

def addOnlyNewFile : FigmaFileResponse :=
  { name := "Design",
    document := .mk { id := "0:0", name := "Document", type := "DOCUMENT" }
      [.mk { id := "1:1", name := "Card", type := "FRAME" } []],
    components := [], styles := [] }

/-- The feature of the ticket-scoring scenario (only its name matters to
the matcher). -/
def buttonFeature : FeatureGroup :=
  { name := "Button", description := "", category := .component, changeType := .new,
    changes := ⟨0, 0, 0⟩, variants := [], highlights := [], nodeChanges := [],
    componentChanges := [], path := "Button" }

/-- The ticket of the scoring scenario: title only, no design-file link, no
description, no labels. -/
def primaryButtonTicket : LinearTicket :=
  { id := "TIC-1", title := "Primary Button redesign" }

/-- A feature group carrying exactly the four `State=` variants of the
readiness scenario and nothing else. -/
def statesFeature : FeatureGroup :=
  { name := "Button", description := "", category := .component, changeType := .new,
    changes := ⟨0, 0, 0⟩,
    variants := ["State=Default", "State=Hover", "State=Disabled", "State=Focus"],
    highlights := [], nodeChanges := [], componentChanges := [], path := "Button" }

/-! ## Helper lemmas -/

theorem mem_dedupFirstAux {x : String} :
    ∀ (l seen : List String), x ∈ dedupFirstAux l seen ↔ (x ∈ l ∧ x ∉ seen)
  | [], seen => by simp [dedupFirstAux]
  | y :: ys, seen => by
    simp only [dedupFirstAux]
    by_cases hy : y ∈ seen
    · rw [if_pos hy]
      simp only [mem_dedupFirstAux ys seen, List.mem_cons]
      constructor
      · rintro ⟨h1, h2⟩; exact ⟨Or.inr h1, h2⟩
      · rintro ⟨rfl | h1, h2⟩
        · exact absurd hy h2
        · exact ⟨h1, h2⟩
    · rw [if_neg hy]
      simp only [List.mem_cons, mem_dedupFirstAux ys (seen ++ [y]), List.mem_append,
        List.mem_singleton]
      constructor
      · rintro (rfl | ⟨h1, h2⟩)
        · exact ⟨Or.inl rfl, hy⟩
        · exact ⟨Or.inr h1, fun hs => h2 (Or.inl hs)⟩
      · rintro ⟨rfl | h1, h2⟩
        · exact Or.inl rfl
        · rcases eq_or_ne x y with rfl | hxy
          · exact Or.inl rfl
          · refine Or.inr ⟨h1, fun hs => ?_⟩
            rcases hs with hs | hs
            · exact h2 hs
            · simp only [List.mem_singleton, List.mem_cons, List.not_mem_nil,
                or_false] at hs
              exact hxy hs

theorem mem_dedupFirst {x : String} {l : List String} :
    x ∈ dedupFirst l ↔ x ∈ l := by
  simp [dedupFirst, mem_dedupFirstAux]

theorem nodup_dedupFirstAux :
    ∀ (l seen : List String), (dedupFirstAux l seen).Nodup
  | [], _ => by simp [dedupFirstAux]
  | y :: ys, seen => by
    simp only [dedupFirstAux]
    by_cases hy : y ∈ seen
    · rw [if_pos hy]; exact nodup_dedupFirstAux ys seen
    · rw [if_neg hy]
      refine List.nodup_cons.2 ⟨?_, nodup_dedupFirstAux ys (seen ++ [y])⟩
      intro hmem
      exact (mem_dedupFirstAux ys (seen ++ [y])).1 hmem |>.2 (by simp)

theorem nodup_dedupFirst (l : List String) : (dedupFirst l).Nodup :=
  nodup_dedupFirstAux l []

theorem nodup_jsKeys {α : Type} (l : List (String × α)) : (jsKeys l).Nodup :=
  nodup_dedupFirst _

theorem mem_jsKeys {α : Type} {k : String} {l : List (String × α)} :
    k ∈ jsKeys l ↔ k ∈ l.map Prod.fst := by
  simp [jsKeys, mem_dedupFirst]

theorem valueSize_pos (v : Value) : 1 ≤ valueSize v := by
  cases v <;> simp [valueSize]

theorem mem_valueListSize {a : Value} :
    ∀ {xs : List Value}, a ∈ xs → valueSize a ≤ valueListSize xs
  | [], h => by simp at h
  | x :: xs, h => by
    rcases List.mem_cons.1 h with rfl | h
    · simp [valueListSize]
    · calc valueSize a ≤ valueListSize xs := mem_valueListSize h
        _ ≤ valueSize x + valueListSize xs := Nat.le_add_left _ _
        _ = valueListSize (x :: xs) := by simp [valueListSize]

theorem snd_valueFieldsSize {p : String × Value} :
    ∀ {l : List (String × Value)}, p ∈ l → valueSize p.2 ≤ valueFieldsSize l
  | [], h => by simp at h
  | q :: l, h => by
    rcases List.mem_cons.1 h with rfl | h
    · simp [valueFieldsSize]
    · calc valueSize p.2 ≤ valueFieldsSize l := snd_valueFieldsSize h
        _ ≤ valueSize q.2 + valueFieldsSize l := Nat.le_add_left _ _
        _ = valueFieldsSize (q :: l) := by simp [valueFieldsSize]

theorem jsGetD_size_of_mem {l : List (String × Value)} {k : String}
    (h : k ∈ l.map Prod.fst) : valueSize (jsGetD l k) ≤ valueFieldsSize l := by
  unfold jsGetD jsGet
  have h' : k ∈ l.reverse.map Prod.fst := by simpa using h
  rcases List.mem_map.1 h' with ⟨p, hp, hk⟩
  have hsome : (l.reverse.find? (fun p => decide (p.1 = k))).isSome := by
    rw [List.find?_isSome]
    exact ⟨p, hp, by simp [hk]⟩
  rcases Option.isSome_iff_exists.1 hsome with ⟨q, hq⟩
  have hqmem : q ∈ l := List.mem_reverse.1 (List.mem_of_find?_eq_some hq)
  simp only [hq, Option.map_some', Option.getD_some]
  exact snd_valueFieldsSize hqmem

theorem mem_zip_self {α : Type} {p : α × α} :
    ∀ {xs : List α}, p ∈ xs.zip xs → p.1 = p.2 ∧ p.1 ∈ xs
  | [], h => by simp at h
  | x :: xs, h => by
    rcases List.mem_cons.1 h with rfl | h
    · exact ⟨rfl, List.mem_cons_self _ _⟩
    · rcases mem_zip_self h with ⟨h1, h2⟩
      exact ⟨h1, List.mem_cons_of_mem _ h2⟩

theorem deepEqualFuel_refl : ∀ (n : Nat) (v : Value), valueSize v ≤ n →
    deepEqualFuel n v v = true := by
  intro n
  induction n with
  | zero => intro v hv; exact absurd (Nat.le_trans (valueSize_pos v) hv) (by simp)
  | succ n ih =>
    intro v hv
    cases v with
    | str s => simp [deepEqualFuel]
    | num m => simp [deepEqualFuel]
    | bool b => simp [deepEqualFuel]
    | null => simp [deepEqualFuel]
    | undef => simp [deepEqualFuel]
    | arr xs =>
      have hsz : valueListSize xs ≤ n := by
        have : valueSize (Value.arr xs) = 1 + valueListSize xs := by simp [valueSize]
        omega
      simp only [deepEqualFuel, decide_eq_true_eq, Bool.and_eq_true, List.all_eq_true]
      refine ⟨by simp, fun p hp => ?_⟩
      rcases mem_zip_self hp with ⟨h1, h2⟩
      have := mem_valueListSize h2
      rw [← h1]
      exact ih p.1 (by omega)
    | obj fs =>
      have hsz : valueFieldsSize fs ≤ n := by
        have : valueSize (Value.obj fs) = 1 + valueFieldsSize fs := by simp [valueSize]
        omega
      simp only [deepEqualFuel, decide_eq_true_eq, Bool.and_eq_true, List.all_eq_true]
      refine ⟨trivial, fun k hk => ⟨by simpa using hk, ?_⟩⟩
      have hmem : k ∈ fs.map Prod.fst := mem_jsKeys.1 hk
      have := jsGetD_size_of_mem hmem
      exact ih _ (by omega)

theorem deepEqual_refl (v : Value) : deepEqual v v = true :=
  deepEqualFuel_refl _ v le_rfl

theorem findPropertyChanges_self (node : FigmaNode) :
    findPropertyChanges node node = [] := by
  unfold findPropertyChanges
  rw [List.filterMap_eq_nil_iff]
  intro key _
  rw [if_pos (deepEqual_refl _)]

theorem diffAddedNodes_self (m : List (String × NodeInfo)) :
    diffAddedNodes m m = [] := by
  simp only [diffAddedNodes]
  rw [List.filterMap_eq_nil_iff]
  intro id hid
  rw [if_pos hid]

theorem diffRemovedNodes_self (m : List (String × NodeInfo)) :
    diffRemovedNodes m m = [] := by
  simp only [diffRemovedNodes]
  rw [List.filterMap_eq_nil_iff]
  intro id hid
  rw [if_pos hid]

theorem diffModifiedNodes_self (m : List (String × NodeInfo)) :
    diffModifiedNodes m m = [] := by
  simp only [diffModifiedNodes]
  rw [List.filterMap_eq_nil_iff]
  intro id hid
  simp only [if_pos hid, findPropertyChanges_self, List.length_nil, gt_iff_lt,
    Nat.lt_irrefl, if_false, ite_self]

theorem diffComponents_self (c : List (String × FigmaComponent)) :
    diffComponents c c = [] := by
  simp only [diffComponents]
  rw [List.append_eq_nil]
  constructor
  · rw [List.filterMap_eq_nil_iff]
    intro key hkey
    rw [if_pos hkey]
  · rw [List.filterMap_eq_nil_iff]
    intro key hkey
    simp [if_pos hkey]

theorem diffStyles_self (s : List (String × FigmaStyle)) :
    diffStyles s s = [] := by
  simp only [diffStyles]
  rw [List.append_eq_nil]
  constructor
  · rw [List.filterMap_eq_nil_iff]
    intro key hkey
    rw [if_pos hkey]
  · rw [List.filterMap_eq_nil_iff]
    intro key hkey
    simp [if_pos hkey]

/-- Counting elements of a `filterMap` whose produced value satisfies `p`
exactly when the source element is a fixed `target`: with no duplicate
sources, the count is 1 when `target` produces a value and 0 otherwise. -/
theorem countP_filterMap_target {α β : Type} (f : α → Option β) (p : β → Bool) :
    ∀ (l : List α) (target : α), l.Nodup → target ∈ l →
    (∀ a b, f a = some b → (p b = true ↔ a = target)) →
    (l.filterMap f).countP p = if (f target).isSome then 1 else 0
  | [], target, _, htar, _ => absurd htar (List.not_mem_nil _)
  | a :: l, target, hnd, htar, hkey => by
    have hnd' := List.nodup_cons.1 hnd
    rcases List.mem_cons.1 htar with rfl | htar'
    · have hzero : (l.filterMap f).countP p = 0 := by
        rw [List.countP_eq_zero]
        intro b hb
        rcases List.mem_filterMap.1 hb with ⟨a', ha', hfa'⟩
        intro hp
        exact hnd'.1 (((hkey a' b hfa').1 hp) ▸ ha')
      rw [List.filterMap_cons]
      cases hfa : f target with
      | none => simp [hfa, hzero]
      | some b =>
        have hp : p b = true := (hkey target b hfa).2 rfl
        simp [hfa, List.countP_cons, hzero, hp]
    · have hne : a ≠ target := fun h => hnd'.1 (h ▸ htar')
      have ih := countP_filterMap_target f p l target hnd'.2 htar' hkey
      rw [List.filterMap_cons]
      cases hfa : f a with
      | none => simpa [hfa] using ih
      | some b =>
        have hp : p b = false := by
          cases hpb : p b with
          | false => rfl
          | true => exact absurd ((hkey a b hfa).1 hpb) hne
        simp [hfa, List.countP_cons, hp, ih]

/-- Every element of the `added` list is an id of the new map that is
absent from the old map, and carries kind `added`. -/
theorem diffAddedNodes_shape {oldM newM : List (String × NodeInfo)} {c : NodeChange}
    (h : c ∈ diffAddedNodes oldM newM) :
    c.nodeId ∈ jsKeys newM ∧ c.nodeId ∉ jsKeys oldM ∧ c.type = ChangeType.added := by
  simp only [diffAddedNodes, List.mem_filterMap] at h
  rcases h with ⟨id, hid, hf⟩
  split_ifs at hf with h1 h2
  cases hf
  exact ⟨hid, h1, rfl⟩

theorem diffRemovedNodes_shape {oldM newM : List (String × NodeInfo)} {c : NodeChange}
    (h : c ∈ diffRemovedNodes oldM newM) :
    c.nodeId ∈ jsKeys oldM ∧ c.nodeId ∉ jsKeys newM ∧ c.type = ChangeType.removed := by
  simp only [diffRemovedNodes, List.mem_filterMap] at h
  rcases h with ⟨id, hid, hf⟩
  split_ifs at hf with h1 h2
  cases hf
  exact ⟨hid, h1, rfl⟩

theorem diffModifiedNodes_shape {oldM newM : List (String × NodeInfo)} {c : NodeChange}
    (h : c ∈ diffModifiedNodes oldM newM) :
    c.nodeId ∈ jsKeys oldM ∧ c.nodeId ∈ jsKeys newM
    ∧ c.type = classifyModification
        (findPropertyChanges (nodeInfoAt oldM c.nodeId).node (nodeInfoAt newM c.nodeId).node)
        (nodeInfoAt oldM c.nodeId).path (nodeInfoAt newM c.nodeId).path
    ∧ (findPropertyChanges (nodeInfoAt oldM c.nodeId).node
        (nodeInfoAt newM c.nodeId).node).length > 0 := by
  simp only [diffModifiedNodes, List.mem_filterMap] at h
  rcases h with ⟨id, hid, hf⟩
  split_ifs at hf with h1 h2 h3
  cases hf
  exact ⟨hid, h1, rfl, h3⟩

/-- The classification never yields `moved`: the `moved` branch requires an
empty change list inside a branch requiring a non-empty one. -/
theorem classifyModification_ne_moved (propChanges : List PropertyChange)
    (oldPath newPath : List String) (hlen : propChanges.length > 0) :
    classifyModification propChanges oldPath newPath ≠ ChangeType.moved := by
  unfold classifyModification
  have hlen0 : ¬ propChanges.length = 0 := by omega
  simp only [if_neg (by exact fun h => hlen0 h.2 :
    ¬ (String.intercalate "/" oldPath.dropLast ≠ String.intercalate "/" newPath.dropLast
       ∧ propChanges.length = 0))]
  split_ifs <;> simp

theorem classifyModification_ne_added (propChanges : List PropertyChange)
    (oldPath newPath : List String) :
    classifyModification propChanges oldPath newPath ≠ ChangeType.added := by
  simp only [classifyModification]
  split_ifs <;> simp

theorem classifyModification_ne_removed (propChanges : List PropertyChange)
    (oldPath newPath : List String) :
    classifyModification propChanges oldPath newPath ≠ ChangeType.removed := by
  simp only [classifyModification]
  split_ifs <;> simp

/-! ## Claim theorems -/

/-- Claim C2: diffing any snapshot against itself (same tree, same component
table, same style table) yields a DiffResult with zero NodeChanges, zero
ComponentChanges, and zero StyleChanges. -/
theorem diffFiles_self_empty (file : FigmaFileResponse) (v1 v2 : FigmaVersion) :
    (diffFiles file file v1 v2).nodeChanges = []
    ∧ (diffFiles file file v1 v2).componentChanges = []
    ∧ (diffFiles file file v1 v2).styleChanges = [] := by
  simp only [diffFiles, diffAddedNodes_self, diffRemovedNodes_self,
    diffModifiedNodes_self, diffComponents_self, diffStyles_self,
    List.append_nil, List.nil_append]
  exact ⟨trivial, trivial, trivial⟩

/-- The node-change list of `diffFiles` is the concatenation of the three
loops, in push order. -/
theorem diffFiles_nodeChanges (oldFile newFile : FigmaFileResponse)
    (v1 v2 : FigmaVersion) :
    (diffFiles oldFile newFile v1 v2).nodeChanges =
      diffAddedNodes (flattenNodes oldFile.document []) (flattenNodes newFile.document [])
      ++ diffRemovedNodes (flattenNodes oldFile.document []) (flattenNodes newFile.document [])
      ++ diffModifiedNodes (flattenNodes oldFile.document []) (flattenNodes newFile.document []) := rfl

/-- Claim C3: an identifier present only in the new snapshot whose node is
not a document/canvas container yields exactly one NodeChange, of kind
`added`; an identifier present only in the old snapshot yields exactly one
NodeChange, of kind `removed`; and no identifier is reported both added and
removed in one run. -/
theorem diffFiles_added_removed_exactly_once (oldFile newFile : FigmaFileResponse)
    (v1 v2 : FigmaVersion) :
    (∀ id : String,
      id ∈ jsKeys (flattenNodes newFile.document []) →
      id ∉ jsKeys (flattenNodes oldFile.document []) →
      (nodeInfoAt (flattenNodes newFile.document []) id).node.data.type ≠ "DOCUMENT" →
      (nodeInfoAt (flattenNodes newFile.document []) id).node.data.type ≠ "CANVAS" →
      (diffFiles oldFile newFile v1 v2).nodeChanges.countP
          (fun c => decide (c.nodeId = id)) = 1
      ∧ ∀ c ∈ (diffFiles oldFile newFile v1 v2).nodeChanges,
          c.nodeId = id → c.type = ChangeType.added)
    ∧ (∀ id : String,
      id ∈ jsKeys (flattenNodes oldFile.document []) →
      id ∉ jsKeys (flattenNodes newFile.document []) →
      (nodeInfoAt (flattenNodes oldFile.document []) id).node.data.type ≠ "DOCUMENT" →
      (nodeInfoAt (flattenNodes oldFile.document []) id).node.data.type ≠ "CANVAS" →
      (diffFiles oldFile newFile v1 v2).nodeChanges.countP
          (fun c => decide (c.nodeId = id)) = 1
      ∧ ∀ c ∈ (diffFiles oldFile newFile v1 v2).nodeChanges,
          c.nodeId = id → c.type = ChangeType.removed)
    ∧ (∀ id : String,
      ¬((∃ c ∈ (diffFiles oldFile newFile v1 v2).nodeChanges,
           c.nodeId = id ∧ c.type = ChangeType.added)
        ∧ (∃ c ∈ (diffFiles oldFile newFile v1 v2).nodeChanges,
           c.nodeId = id ∧ c.type = ChangeType.removed))) := by
  rw [diffFiles_nodeChanges]
  set oldM := flattenNodes oldFile.document [] with holdM
  set newM := flattenNodes newFile.document [] with hnewM
  refine ⟨?_, ?_, ?_⟩
  · intro id hnew hold hdoc hcanvas
    constructor
    · rw [List.countP_append, List.countP_append]
      have hA : (diffAddedNodes oldM newM).countP (fun c => decide (c.nodeId = id)) = 1 := by
        simp only [diffAddedNodes]
        rw [countP_filterMap_target _ _ _ id (nodup_jsKeys newM) hnew ?_]
        · rw [if_pos]
          rw [if_neg hold, if_neg (by tauto)]
          simp
        · intro a b hf
          split_ifs at hf
          cases hf
          simp
      have hR : (diffRemovedNodes oldM newM).countP (fun c => decide (c.nodeId = id)) = 0 := by
        rw [List.countP_eq_zero]
        intro c hc
        have := (diffRemovedNodes_shape hc).1
        simp only [decide_eq_true_eq]
        intro hcid
        exact hold (hcid ▸ this)
      have hM : (diffModifiedNodes oldM newM).countP (fun c => decide (c.nodeId = id)) = 0 := by
        rw [List.countP_eq_zero]
        intro c hc
        have := (diffModifiedNodes_shape hc).1
        simp only [decide_eq_true_eq]
        intro hcid
        exact hold (hcid ▸ this)
      omega
    · intro c hc hcid
      rcases List.mem_append.1 hc with hc' | hcM
      · rcases List.mem_append.1 hc' with hcA | hcR
        · exact (diffAddedNodes_shape hcA).2.2
        · exact absurd (hcid ▸ (diffRemovedNodes_shape hcR).1) hold
      · exact absurd (hcid ▸ (diffModifiedNodes_shape hcM).1) hold
  · intro id hold hnew hdoc hcanvas
    constructor
    · rw [List.countP_append, List.countP_append]
      have hA : (diffAddedNodes oldM newM).countP (fun c => decide (c.nodeId = id)) = 0 := by
        rw [List.countP_eq_zero]
        intro c hc
        have := (diffAddedNodes_shape hc).1
        simp only [decide_eq_true_eq]
        intro hcid
        exact hnew (hcid ▸ this)
      have hR : (diffRemovedNodes oldM newM).countP (fun c => decide (c.nodeId = id)) = 1 := by
        simp only [diffRemovedNodes]
        rw [countP_filterMap_target _ _ _ id (nodup_jsKeys oldM) hold ?_]
        · rw [if_pos]
          rw [if_neg hnew, if_neg (by tauto)]
          simp
        · intro a b hf
          split_ifs at hf
          cases hf
          simp
      have hM : (diffModifiedNodes oldM newM).countP (fun c => decide (c.nodeId = id)) = 0 := by
        rw [List.countP_eq_zero]
        intro c hc
        have := (diffModifiedNodes_shape hc).2.1
        simp only [decide_eq_true_eq]
        intro hcid
        exact hnew (hcid ▸ this)
      omega
    · intro c hc hcid
      rcases List.mem_append.1 hc with hc' | hcM
      · rcases List.mem_append.1 hc' with hcA | hcR
        · exact absurd (hcid ▸ (diffAddedNodes_shape hcA).1) hnew
        · exact (diffRemovedNodes_shape hcR).2.2
      · exact absurd (hcid ▸ (diffModifiedNodes_shape hcM).2.1) hnew
  · rintro id ⟨⟨c, hc, hcid, hcadd⟩, ⟨c', hc', hcid', hcrem⟩⟩
    have hcA : c.nodeId ∉ jsKeys oldM := by
      rcases List.mem_append.1 hc with h | hM
      · rcases List.mem_append.1 h with hA | hR
        · exact (diffAddedNodes_shape hA).2.1
        · exact absurd hcadd (by rw [(diffRemovedNodes_shape hR).2.2]; simp)
      · exact absurd hcadd (by
          rw [(diffModifiedNodes_shape hM).2.2.1]
          exact classifyModification_ne_added _ _ _)
    have hcR : c'.nodeId ∈ jsKeys oldM := by
      rcases List.mem_append.1 hc' with h | hM
      · rcases List.mem_append.1 h with hA | hR
        · exact absurd hcrem (by rw [(diffAddedNodes_shape hA).2.2]; simp)
        · exact (diffRemovedNodes_shape hR).1
      · exact absurd hcrem (by
          rw [(diffModifiedNodes_shape hM).2.2.1]
          exact classifyModification_ne_removed _ _ _)
    rw [hcid] at hcA
    rw [hcid'] at hcR
    exact hcA hcR

/-- Witness for C3 at a concrete one-node addition. -/
theorem diffFiles_added_removed_exactly_once_witness :
    (diffFiles addOnlyOldFile addOnlyNewFile (mkVersion "v1" "d1")
      (mkVersion "v2" "d2")).nodeChanges.countP
        (fun c => decide (c.nodeId = "1:1")) = 1 :=
  ((diffFiles_added_removed_exactly_once addOnlyOldFile addOnlyNewFile
      (mkVersion "v1" "d1") (mkVersion "v2" "d2")).1 "1:1"
    (by decide) (by decide) (by decide) (by decide)).1

/-- No run of `diffFiles` ever emits a `moved` NodeChange: the `moved`
branch of the classification is unreachable. -/
theorem diffFiles_never_moved (oldFile newFile : FigmaFileResponse)
    (v1 v2 : FigmaVersion) :
    ∀ c ∈ (diffFiles oldFile newFile v1 v2).nodeChanges,
      c.type ≠ ChangeType.moved := by
  intro c hc
  rw [diffFiles_nodeChanges] at hc
  rcases List.mem_append.1 hc with hc' | hM
  · rcases List.mem_append.1 hc' with hA | hR
    · rw [(diffAddedNodes_shape hA).2.2]; simp
    · rw [(diffRemovedNodes_shape hR).2.2]; simp
  · rcases diffModifiedNodes_shape hM with ⟨_, _, hty, hlen⟩
    rw [hty]
    exact classifyModification_ne_moved _ _ _ hlen

/-- Claim C1 (code bug): a node present in both snapshots with an unchanged
comparable projection but a different ancestor path — node `3:1` of the
concrete move scenario — produces NO NodeChange at all, instead of the one
`moved` NodeChange the specification promises; `nodesMoved` stays 0. -/
theorem diffFiles_moved_node_emits_nothing :
    "3:1" ∈ jsKeys (flattenNodes movedOldFile.document [])
    ∧ "3:1" ∈ jsKeys (flattenNodes movedNewFile.document [])
    ∧ (findPropertyChanges
        (nodeInfoAt (flattenNodes movedOldFile.document []) "3:1").node
        (nodeInfoAt (flattenNodes movedNewFile.document []) "3:1").node).length = 0
    ∧ (nodeInfoAt (flattenNodes movedOldFile.document []) "3:1").path
        ≠ (nodeInfoAt (flattenNodes movedNewFile.document []) "3:1").path
    ∧ (diffFiles movedOldFile movedNewFile (mkVersion "v1" "d1")
        (mkVersion "v2" "d2")).nodeChanges.length = 0
    ∧ (diffFiles movedOldFile movedNewFile (mkVersion "v1" "d1")
        (mkVersion "v2" "d2")).summary.nodesMoved = 0 := by decide

/-- A one-element property delta whose single property is `name` is always
classified `renamed`, whatever the paths are. -/
theorem classifyModification_renamed (pcs : List PropertyChange)
    (h : pcs.map (fun c => c.property) = ["name"])
    (oldPath newPath : List String) :
    classifyModification pcs oldPath newPath = ChangeType.renamed := by
  cases pcs with
  | nil => simp at h
  | cons pc rest =>
    cases rest with
    | cons pc2 rest2 => simp at h
    | nil =>
      have hname : pc.property = "name" := by simpa using h
      simp only [classifyModification, List.find?, hname]
      simp

/-- Claim C4 counterexample: in the concrete rename-and-move scenario the
single emitted NodeChange has kind `renamed`, not `modified` — the ancestor
path is not part of the comparable projection, so only one property
(`name`) differs and the rename rule fires. -/
theorem diffFiles_renamed_and_moved_is_renamed_cex :
    (findPropertyChanges
        (nodeInfoAt (flattenNodes renMovOldFile.document []) "3:1").node
        (nodeInfoAt (flattenNodes renMovNewFile.document []) "3:1").node).map
        (fun c => c.property) = ["name"]
    ∧ (nodeInfoAt (flattenNodes renMovOldFile.document []) "3:1").path
        ≠ (nodeInfoAt (flattenNodes renMovNewFile.document []) "3:1").path
    ∧ ((diffFiles renMovOldFile renMovNewFile (mkVersion "v1" "d1")
        (mkVersion "v2" "d2")).nodeChanges.map (fun c => c.type))
        = [ChangeType.renamed]
    ∧ ¬(((diffFiles renMovOldFile renMovNewFile (mkVersion "v1" "d1")
        (mkVersion "v2" "d2")).nodeChanges.map (fun c => c.type))
        = [ChangeType.modified]) := by decide

/-- Claim C4 (amended): a node in both snapshots whose only changed
comparable property is `name`, even when its ancestor path also changed, is
reported exactly once, classified `renamed` (not `modified`: the path is
not a comparable property, so only one property differs). -/
theorem diffFiles_renamed_and_moved_classified_renamed
    (oldFile newFile : FigmaFileResponse) (v1 v2 : FigmaVersion) (id : String)
    (hold : id ∈ jsKeys (flattenNodes oldFile.document []))
    (hnew : id ∈ jsKeys (flattenNodes newFile.document []))
    (hdoc : ¬((nodeInfoAt (flattenNodes oldFile.document []) id).node.data.type = "DOCUMENT"
        ∨ (nodeInfoAt (flattenNodes oldFile.document []) id).node.data.type = "CANVAS"))
    (hpc : (findPropertyChanges
        (nodeInfoAt (flattenNodes oldFile.document []) id).node
        (nodeInfoAt (flattenNodes newFile.document []) id).node).map
        (fun c => c.property) = ["name"])
    (_hpath : String.intercalate "/" (nodeInfoAt (flattenNodes oldFile.document []) id).path.dropLast
        ≠ String.intercalate "/" (nodeInfoAt (flattenNodes newFile.document []) id).path.dropLast) :
    (diffFiles oldFile newFile v1 v2).nodeChanges.countP
        (fun c => decide (c.nodeId = id)) = 1
    ∧ ∀ c ∈ (diffFiles oldFile newFile v1 v2).nodeChanges,
        c.nodeId = id → c.type = ChangeType.renamed := by
  rw [diffFiles_nodeChanges]
  set oldM := flattenNodes oldFile.document [] with holdM
  set newM := flattenNodes newFile.document [] with hnewM
  have hlen : (findPropertyChanges (nodeInfoAt oldM id).node
      (nodeInfoAt newM id).node).length = 1 := by
    have := congrArg List.length hpc
    simpa using this
  constructor
  · rw [List.countP_append, List.countP_append]
    have hA : (diffAddedNodes oldM newM).countP (fun c => decide (c.nodeId = id)) = 0 := by
      rw [List.countP_eq_zero]
      intro c hc
      have := (diffAddedNodes_shape hc).2.1
      simp only [decide_eq_true_eq]
      intro hcid
      exact this (hcid ▸ hold)
    have hR : (diffRemovedNodes oldM newM).countP (fun c => decide (c.nodeId = id)) = 0 := by
      rw [List.countP_eq_zero]
      intro c hc
      have := (diffRemovedNodes_shape hc).2.1
      simp only [decide_eq_true_eq]
      intro hcid
      exact this (hcid ▸ hnew)
    have hM : (diffModifiedNodes oldM newM).countP (fun c => decide (c.nodeId = id)) = 1 := by
      simp only [diffModifiedNodes]
      rw [countP_filterMap_target _ _ _ id (nodup_jsKeys oldM) hold ?_]
      · rw [if_pos]
        rw [if_pos hnew, if_neg hdoc, if_pos (by omega)]
        simp
      · intro a b hf
        split_ifs at hf
        cases hf
        simp
    omega
  · intro c hc hcid
    rcases List.mem_append.1 hc with hc' | hcM
    · rcases List.mem_append.1 hc' with hcA | hcR
      · exact absurd (hcid ▸ hold) (diffAddedNodes_shape hcA).2.1
      · exact absurd (hcid ▸ hnew) (diffRemovedNodes_shape hcR).2.1
    · rw [(diffModifiedNodes_shape hcM).2.2.1, hcid]
      exact classifyModification_renamed _ hpc _ _

/-- Witness for the amended C4 at the concrete rename-and-move input. -/
theorem diffFiles_renamed_and_moved_classified_renamed_witness :
    (diffFiles renMovOldFile renMovNewFile (mkVersion "v1" "d1")
      (mkVersion "v2" "d2")).nodeChanges.countP
        (fun c => decide (c.nodeId = "3:1")) = 1 :=
  (diffFiles_renamed_and_moved_classified_renamed renMovOldFile renMovNewFile
    (mkVersion "v1" "d1") (mkVersion "v2" "d2") "3:1"
    (by decide) (by decide) (by decide) (by decide) (by decide)).1

/-- Claim C7: the end-to-end grouping scenario.  Adding the sibling
component "Button/State=Hover" (node and library entry) produces one added
NodeChange and one added ComponentChange, grouped into a single
FeatureGroup named "Button" with category `component` and changeType
`new`. -/
theorem scenario_single_button_group :
    ((diffFiles scenarioOldFile scenarioNewFile (mkVersion "v1" "d1")
        (mkVersion "v2" "d2")).nodeChanges.map (fun c => c.type)) = [ChangeType.added]
    ∧ ((diffFiles scenarioOldFile scenarioNewFile (mkVersion "v1" "d1")
        (mkVersion "v2" "d2")).componentChanges.map (fun c => c.type)) = [ChangeType.added]
    ∧ ((groupChangesSemanticaly (diffFiles scenarioOldFile scenarioNewFile
        (mkVersion "v1" "d1") (mkVersion "v2" "d2"))).features.map
        (fun f => f.name)) = ["Button"]
    ∧ ((groupChangesSemanticaly (diffFiles scenarioOldFile scenarioNewFile
        (mkVersion "v1" "d1") (mkVersion "v2" "d2"))).features.map
        (fun f => f.category)) = [FeatureCategory.component]
    ∧ ((groupChangesSemanticaly (diffFiles scenarioOldFile scenarioNewFile
        (mkVersion "v1" "d1") (mkVersion "v2" "d2"))).features.map
        (fun f => f.changeType)) = [GroupChangeType.new]
    ∧ ((groupChangesSemanticaly (diffFiles scenarioOldFile scenarioNewFile
        (mkVersion "v1" "d1") (mkVersion "v2" "d2"))).features.map
        (fun f => f.nodeChanges.length)) = [1]
    ∧ ((groupChangesSemanticaly (diffFiles scenarioOldFile scenarioNewFile
        (mkVersion "v1" "d1") (mkVersion "v2" "d2"))).features.map
        (fun f => f.componentChanges.length)) = [1]
    ∧ (groupChangesSemanticaly (diffFiles scenarioOldFile scenarioNewFile
        (mkVersion "v1" "d1") (mkVersion "v2" "d2"))).ungroupedChanges.length = 0 := by
  decide

/-- The substring rule of `similarity` fires for these two titles: the
normalized "Primary Button redesign" contains the normalized "Button". -/
theorem similarity_button_primary :
    similarity "Button" "Primary Button redesign" = 8 / 10 := by
  simp only [similarity]
  rw [if_neg (by decide), if_pos (by decide)]

/-- Claim C8 counterexample: the title similarity of feature "Button"
against ticket "Primary Button redesign" is 0.8 (substring containment
rule), not the 0.5 token-overlap value the claim states. -/
theorem similarity_button_primary_not_half :
    similarity "Button" "Primary Button redesign" ≠ 1 / 2
    ∧ similarity "Button" "Primary Button redesign" = 8 / 10 := by
  refine ⟨?_, similarity_button_primary⟩
  rw [similarity_button_primary]
  norm_num

/-- Claim C8 (amended): scoring the ticket "Primary Button redesign"
against feature "Button" uses title similarity 0.8 via the containment
rule, contributing 0.8 × 0.3 = 0.24; the confidence tier is still `low`
and the reason is `Title match: "Primary Button redesign"`. -/
theorem ticket_scoring_scenario :
    (findBestTicketMatch buttonFeature [primaryButtonTicket] Option.none).confidence
        = Confidence.low
    ∧ (findBestTicketMatch buttonFeature [primaryButtonTicket] Option.none).reason
        = "Title match: \"Primary Button redesign\""
    ∧ (findBestTicketMatch buttonFeature [primaryButtonTicket] Option.none).ticket
        = some primaryButtonTicket
    ∧ similarity buttonFeature.name primaryButtonTicket.title = 8 / 10
    ∧ (8 / 10 : ℚ) * (3 / 10) = 6 / 25 := by
  refine ⟨?_, ?_, ?_, similarity_button_primary, by norm_num⟩ <;>
    (norm_num [findBestTicketMatch, bestLoop, scoreTicket, similarity_button_primary,
      buttonFeature, primaryButtonTicket];
     all_goals decide)

/-- Claim C9: a feature with exactly the variants State=Default, State=Hover,
State=Disabled, State=Focus, category `component`, no responsive indicator
in variants or node paths, no annotation-keyword TEXT change and at most 3
component changes scores exactly 67
(30 states + 2 bonus + 10 responsive partial + 20 tokens + 5 annotations + 0
prototype). -/
theorem assessComponentReadiness_states_scenario (f : FeatureGroup)
    (hv : f.variants = ["State=Default", "State=Hover", "State=Disabled", "State=Focus"])
    (hcat : f.category = FeatureCategory.component)
    (hresp : hasResponsiveVariants f.variants
      (f.nodeChanges.map (fun c => String.intercalate " " c.path)) = false)
    (hann : hasAnnotationChanges f.nodeChanges = false)
    (hcc : f.componentChanges.length ≤ 3) :
    (assessComponentReadiness f).overall = 67 := by
  have hst : extractStates f.variants = ["Default", "Hover", "Disabled", "Focus"] := by
    rw [hv]; decide
  have hreq : REQUIRED_STATES.all
      (stateFound ["Default", "Hover", "Disabled", "Focus"]) = true := by decide
  have hrec : RECOMMENDED_STATES.filter
      (stateFound ["Default", "Hover", "Disabled", "Focus"]) = ["Focus"] := by decide
  have hcc3 : ¬ (f.componentChanges.length > 3) := by omega
  have hcs : FeatureCategory.component ≠ FeatureCategory.componentSet := by decide
  simp only [assessComponentReadiness, hst, hreq, hrec, hcat, hresp, hann]
  norm_num [hcs, hcc3, jsRound, min_def]

/-- Witness for C9 at a concrete feature group. -/
theorem assessComponentReadiness_states_scenario_witness :
    (assessComponentReadiness statesFeature).overall = 67 :=
  assessComponentReadiness_states_scenario statesFeature
    (by decide) (by decide) (by decide) (by decide) (by decide)

/-- Claim C10: the `hasPrototype` boolean of every readiness assessment is
the literal `false`, including when more than 3 component changes award the
8 prototype points into the score — the boolean and the points are
decoupled. -/
theorem assessComponentReadiness_hasPrototype_false (f : FeatureGroup) :
    (assessComponentReadiness f).hasPrototype = false := rfl

/-- The best-so-far fold only ever selects a ticket from its candidate
list (or keeps the accumulator). -/
theorem bestLoop_ticket_mem (feature : FeatureGroup) (fk : Option String) :
    ∀ (ts : List LinearTicket) (acc : Option LinearTicket × ℚ × String)
      (t : LinearTicket),
    (bestLoop feature fk ts acc).1 = some t → acc.1 = some t ∨ t ∈ ts
  | [], _, _, h => Or.inl h
  | t' :: ts, acc, t, h => by
    simp only [bestLoop] at h
    split_ifs at h with hs
    · rcases bestLoop_ticket_mem feature fk ts _ t h with h' | h'
      · simp only [Option.some.injEq] at h'
        exact Or.inr (h' ▸ List.mem_cons_self _ _)
      · exact Or.inr (List.mem_cons_of_mem _ h')
    · rcases bestLoop_ticket_mem feature fk ts acc t h with h' | h'
      · exact Or.inl h'
      · exact Or.inr (List.mem_cons_of_mem _ h')

/-- A returned ticket always belongs to the candidate list. -/
theorem findBestTicketMatch_mem {feature : FeatureGroup}
    {tickets : List LinearTicket} {fk : Option String} {t : LinearTicket}
    (h : (findBestTicketMatch feature tickets fk).ticket = some t) :
    t ∈ tickets := by
  simp only [findBestTicketMatch] at h
  split_ifs at h
  all_goals first
    | exact Option.noConfusion h
    | (rcases bestLoop_ticket_mem feature fk tickets (none, 0, "") t h with h' | h' <;>
        first
          | exact Option.noConfusion h'
          | exact h')

/-- A `none`-confidence result never carries a ticket. -/
theorem findBestTicketMatch_none_ticket {feature : FeatureGroup}
    {tickets : List LinearTicket} {fk : Option String}
    (h : (findBestTicketMatch feature tickets fk).confidence = Confidence.none) :
    (findBestTicketMatch feature tickets fk).ticket = none := by
  simp only [findBestTicketMatch] at h ⊢
  split_ifs at h ⊢ <;> simp_all

theorem mem_setAddId {i s : String} {l : List String} :
    i ∈ setAddId l s ↔ i ∈ l ∨ i = s := by
  unfold setAddId
  split_ifs with h
  · constructor
    · exact Or.inl
    · rintro (h' | rfl)
      · exact h'
      · exact h
  · simp

/-- Invariant of the feature loop: the assigned ticket ids are pairwise
distinct and disjoint from the incoming `matchedIds` set. -/
theorem matchLoop_nodup (tickets : List LinearTicket) (fk : Option String) :
    ∀ (fs : List FeatureGroup) (matchedIds : List String),
    (assignedTicketIds (matchLoop tickets fk fs matchedIds).1).Nodup
    ∧ ∀ i ∈ assignedTicketIds (matchLoop tickets fk fs matchedIds).1, i ∉ matchedIds
  | [], matchedIds => by simp [matchLoop, assignedTicketIds]
  | f :: fs, matchedIds => by
    simp only [matchLoop]
    cases hbt : (findBestTicketMatch f
        (tickets.filter (fun t => !decide (t.id ∈ matchedIds))) fk).ticket with
    | none =>
      simp only [hbt, assignedTicketIds, List.filterMap_cons, Option.map_none']
      exact matchLoop_nodup tickets fk fs matchedIds
    | some t =>
      have hconf : (findBestTicketMatch f
          (tickets.filter (fun t => !decide (t.id ∈ matchedIds))) fk).confidence
          ≠ Confidence.none := by
        intro hc
        rw [findBestTicketMatch_none_ticket hc] at hbt
        exact Option.noConfusion hbt
      have htmem := findBestTicketMatch_mem hbt
      have htid : t.id ∉ matchedIds := by
        have := List.of_mem_filter htmem
        simpa using this
      simp only [hbt, if_pos hconf, assignedTicketIds, List.filterMap_cons,
        Option.map_some']
      have ih := matchLoop_nodup tickets fk fs (setAddId matchedIds t.id)
      constructor
      · refine List.nodup_cons.2 ⟨?_, ih.1⟩
        intro hmem
        exact (ih.2 t.id hmem) (mem_setAddId.2 (Or.inr rfl))
      · intro i hi
        rcases List.mem_cons.1 hi with rfl | hi'
        · exact htid
        · intro hin
          exact (ih.2 i hi') (mem_setAddId.2 (Or.inl hin))

theorem gnc_cons (e : String × FeatureData) (m : List (String × FeatureData)) :
    groupedNodeChanges (e :: m) = e.2.nodeChanges ++ groupedNodeChanges m := by
  simp [groupedNodeChanges]

theorem gnc_append (m1 m2 : List (String × FeatureData)) :
    groupedNodeChanges (m1 ++ m2) = groupedNodeChanges m1 ++ groupedNodeChanges m2 := by
  simp [groupedNodeChanges]

theorem gnc_featMapInit (m : List (String × FeatureData)) (k : String) :
    groupedNodeChanges (featMapInit m k) = groupedNodeChanges m := by
  unfold featMapInit
  split_ifs
  · rfl
  · simp [gnc_append, groupedNodeChanges, emptyFeatureData]

theorem mem_fst_featMapInit (m : List (String × FeatureData)) (k : String) :
    k ∈ (featMapInit m k).map Prod.fst := by
  unfold featMapInit
  split_ifs with h
  · exact h
  · simp

theorem gnc_featMapUpdate_preserve :
    ∀ (m : List (String × FeatureData)) (k : String) (f : FeatureData → FeatureData),
    (∀ d, (f d).nodeChanges = d.nodeChanges) →
    groupedNodeChanges (featMapUpdate m k f) = groupedNodeChanges m
  | [], _, _, _ => rfl
  | e :: rest, k, f, hf => by
    simp only [featMapUpdate]
    split_ifs with h
    · rw [gnc_cons, gnc_cons, hf]
    · rw [gnc_cons, gnc_cons, gnc_featMapUpdate_preserve rest k f hf]

theorem gnc_featMapUpdate_push :
    ∀ (m : List (String × FeatureData)) (k : String) (f : FeatureData → FeatureData)
      (c : NodeChange),
    (∀ d, (f d).nodeChanges = d.nodeChanges ++ [c]) → k ∈ m.map Prod.fst →
    (groupedNodeChanges (featMapUpdate m k f)).Perm (c :: groupedNodeChanges m)
  | [], _, _, _, _, hk => absurd hk (by simp)
  | e :: rest, k, f, c, hf, hk => by
    simp only [featMapUpdate]
    split_ifs with h
    · rw [gnc_cons, gnc_cons, hf]
      have : (e.2.nodeChanges ++ [c]) ++ groupedNodeChanges rest
          = e.2.nodeChanges ++ (c :: groupedNodeChanges rest) := by simp
      rw [this]
      exact List.perm_middle
    · have hk' : k ∈ rest.map Prod.fst := by
        rcases List.mem_map.1 hk with ⟨p, hp, hpk⟩
        rcases List.mem_cons.1 hp with rfl | hp'
        · exact absurd hpk h
        · exact List.mem_map.2 ⟨p, hp', hpk⟩
      rw [gnc_cons, gnc_cons]
      exact ((gnc_featMapUpdate_push rest k f c hf hk').append_left _).trans
        List.perm_middle

/-- The node-change fold of the grouper: the changes held by the map plus
the ungrouped bucket accumulate exactly the noise-surviving prefix. -/
theorem groupNodeStep_fold_perm :
    ∀ (ncs : List NodeChange) (st : List (String × FeatureData) × List NodeChange),
    (groupedNodeChanges (ncs.foldl groupNodeStep st).1
      ++ (ncs.foldl groupNodeStep st).2).Perm
    (groupedNodeChanges st.1 ++ st.2 ++ ncs.filter survivesNoise)
  | [], st => by simp
  | c :: rest, st => by
    rw [List.foldl_cons]
    by_cases hnoise : (isNoiseName c.nodeName && isNoiseType c.nodeType) = true
    · have hstep : groupNodeStep st c = st := by
        simp [groupNodeStep, hnoise]
      have hfil : (c :: rest).filter survivesNoise = rest.filter survivesNoise := by
        simp [List.filter_cons, survivesNoise, hnoise]
      rw [hstep, hfil]
      exact groupNodeStep_fold_perm rest st
    · have hsurv : survivesNoise c = true := by
        simp only [survivesNoise, Bool.not_eq_true']
        exact Bool.not_eq_true _ ▸ (Bool.of_not_eq_true hnoise)
      have hfil : (c :: rest).filter survivesNoise = c :: rest.filter survivesNoise := by
        simp [List.filter_cons, hsurv]
      rw [hfil]
      by_cases hun : (decide ((extractFeatureName c.path).1 = "Ungrouped")
          || isNoiseName (extractFeatureName c.path).1) = true
      · have hstep : groupNodeStep st c = (st.1, st.2 ++ [c]) := by
          simp only [groupNodeStep]
          rw [if_neg (by simp [hnoise]), if_pos hun]
        rw [hstep]
        have hmain := groupNodeStep_fold_perm rest (st.1, st.2 ++ [c])
        have heq : groupedNodeChanges st.1 ++ (st.2 ++ [c]) ++ rest.filter survivesNoise
            = groupedNodeChanges st.1 ++ st.2 ++ (c :: rest.filter survivesNoise) := by
          simp
        rw [heq] at hmain
        exact hmain
      · have hstep : groupNodeStep st c =
            (featMapUpdate (featMapInit st.1 (extractFeatureName c.path).1)
              (extractFeatureName c.path).1 (pushNodeChange c), st.2) := by
          simp only [groupNodeStep]
          rw [if_neg (by simp [hnoise]), if_neg (by simp [hun])]
        rw [hstep]
        have hmain := groupNodeStep_fold_perm rest
          (featMapUpdate (featMapInit st.1 (extractFeatureName c.path).1)
            (extractFeatureName c.path).1 (pushNodeChange c), st.2)
        refine hmain.trans ?_
        have h1 : (groupedNodeChanges (featMapUpdate
            (featMapInit st.1 (extractFeatureName c.path).1)
            (extractFeatureName c.path).1 (pushNodeChange c))).Perm
            (c :: groupedNodeChanges st.1) := by
          refine (gnc_featMapUpdate_push _ _ _ c (fun d => rfl)
            (mem_fst_featMapInit st.1 _)).trans ?_
          rw [gnc_featMapInit]
        refine (((h1.append_right st.2).append_right
          (rest.filter survivesNoise)).trans ?_)
        have hB : ((c :: groupedNodeChanges st.1) ++ st.2)
            ++ rest.filter survivesNoise
            = c :: (groupedNodeChanges st.1 ++ st.2 ++ rest.filter survivesNoise) := by
          simp
        rw [hB]
        exact List.perm_middle.symm

theorem groupComponentStep_gnc (m : List (String × FeatureData))
    (c : ComponentChange) :
    groupedNodeChanges (groupComponentStep m c) = groupedNodeChanges m := by
  simp only [groupComponentStep]
  rw [gnc_featMapUpdate_preserve _ _ (pushComponentChange c) (fun d => rfl),
    gnc_featMapInit]

theorem groupComponent_fold_gnc :
    ∀ (ccs : List ComponentChange) (m : List (String × FeatureData)),
    groupedNodeChanges (ccs.foldl groupComponentStep m) = groupedNodeChanges m
  | [], _ => rfl
  | c :: rest, m => by
    rw [List.foldl_cons, groupComponent_fold_gnc rest _, groupComponentStep_gnc]

theorem buildFeatureGroup_nodeChanges (name : String) (d : FeatureData) :
    (buildFeatureGroup name d).nodeChanges = d.nodeChanges := rfl

theorem flatMap_buildFeatures :
    ∀ (m : List (String × FeatureData)),
    ((m.filterMap (fun e =>
      if e.2.nodeChanges.isEmpty && e.2.componentChanges.isEmpty then none
      else some (buildFeatureGroup e.1 e.2))).flatMap (fun f => f.nodeChanges))
    = groupedNodeChanges m
  | [] => rfl
  | e :: rest => by
    rw [List.filterMap_cons, gnc_cons]
    by_cases h : (e.2.nodeChanges.isEmpty && e.2.componentChanges.isEmpty) = true
    · rw [if_pos h, flatMap_buildFeatures rest]
      have : e.2.nodeChanges = [] :=
        List.isEmpty_iff.1 (Bool.and_eq_true _ _ ▸ h).1
      rw [this, List.nil_append]
    · rw [if_neg h, List.flatMap_cons, buildFeatureGroup_nodeChanges,
        flatMap_buildFeatures rest]

theorem stableInsert_perm {α : Type} (le : α → α → Bool) (x : α) :
    ∀ (l : List α), (stableInsert le x l).Perm (x :: l)
  | [] => List.Perm.refl _
  | y :: ys => by
    simp only [stableInsert]
    split_ifs with h
    · exact ((stableInsert_perm le x ys).cons y).trans (List.Perm.swap x y ys)
    · exact List.Perm.refl _

theorem stableSort_perm {α : Type} (le : α → α → Bool) :
    ∀ (l : List α), (stableSort le l).Perm l
  | [] => List.Perm.refl _
  | x :: xs => (stableInsert_perm le x _).trans ((stableSort_perm le xs).cons x)

/-- Claim C5: partition law of the grouper.  The multiset union of all
FeatureGroups' constituent NodeChanges plus the ungrouped bucket is a
permutation of the noise-filtered input NodeChange list — every surviving
change lands in exactly one place, none duplicated, none lost. -/
theorem groupChangesSemanticaly_partition (diff : DiffResult) :
    (((groupChangesSemanticaly diff).features.flatMap (fun f => f.nodeChanges))
      ++ (groupChangesSemanticaly diff).ungroupedChanges).Perm
    (diff.nodeChanges.filter survivesNoise) := by
  simp only [groupChangesSemanticaly]
  have h1 : ((stableSort featureLE
      ((diff.componentChanges.foldl groupComponentStep
        (diff.nodeChanges.foldl groupNodeStep ([], [])).1).filterMap (fun e =>
        if e.2.nodeChanges.isEmpty && e.2.componentChanges.isEmpty then none
        else some (buildFeatureGroup e.1 e.2)))).flatMap
      (fun f => f.nodeChanges)).Perm
      (groupedNodeChanges (diff.nodeChanges.foldl groupNodeStep ([], [])).1) := by
    refine ((stableSort_perm featureLE _).flatMap_right _).trans ?_
    rw [flatMap_buildFeatures, groupComponent_fold_gnc]
  have h2 := groupNodeStep_fold_perm diff.nodeChanges ([], [])
  simp only [groupedNodeChanges, List.flatMap_nil, List.nil_append] at h2
  exact (h1.append_right _).trans h2

/-- Claim C6: within one run of the ticket matcher no ticket id is
referenced by two different features' matches — the assigned ids are
pairwise distinct, because an assigned ticket is filtered out of the
candidate pool before any later feature is scored. -/
theorem matchFeaturesToTickets_no_double_assignment (sd : SemanticDiffResult)
    (tickets : List LinearTicket) (fk : Option String) :
    (assignedTicketIds (matchFeaturesToTickets sd tickets fk).matches').Nodup := by
  simp only [matchFeaturesToTickets]
  exact (matchLoop_nodup tickets fk sd.features []).1

end RecapMe
